import Mathlib

/-!
Shallow embedding of the AgentCast server core (`server.js`): the in-memory
stream registry, rate limiters, presence tracking, chat, moderation and the
timer-driven sweeps.  JavaScript `Map`s become association lists, `Set`s
become `Finset`s, timestamps (`Date.now()`) become `Nat` milliseconds, and
the random token from `generateToken()` is threaded in as an explicit
argument.  Socket.io side effects (`emit`) are modelled as an explicit list
of emitted events.  The Node runtime is single threaded and no handler
suspends mid-mutation, so concurrency is modelled as arbitrary sequential
interleavings of whole handler executions.
-/

set_option maxRecDepth 4000

/-- One stream line, as built in the send handler:
`{ time: formatTime(), text: escapeHtml(text), type }`.
The wall-clock display string `formatTime()` is modelled by the raw
millisecond timestamp. -/
structure Line where
  time : Nat
  text : String
  type : String
  deriving Repr, DecidableEq

/-- One chat message: `{ user, text, time }`. -/
structure ChatMessage where
  user : String
  text : String
  time : Nat
  deriving Repr, DecidableEq

/-- Per-stream statistics object `stream.stats`. -/
structure StreamStats where
  peakViewers : Nat
  totalMessages : Nat
  deriving Repr, DecidableEq

/-- One entry of the `streams` map. -/
structure StreamSt where
  token : Nat
  active : Bool
  lines : List Line
  viewers : Finset Nat
  startedAt : Nat
  lastActivity : Nat
  stats : StreamStats
  deriving DecidableEq

/-- One fixed-window rate-limit entry `{ count, resetTime }`. -/
structure RateWindow where
  count : Nat
  resetTime : Nat
  deriving Repr, DecidableEq

/-- The `globalStats` object. -/
structure GlobalStats where
  totalStreamsToday : Nat
  peakConcurrentViewers : Nat
  allTimePeakViewers : Nat
  totalMessagesToday : Nat
  lastReset : Nat
  deriving Repr, DecidableEq

/-- Per-socket closure state of the `io.on('connection')` handler:
the `currentStream` variable and the chat cooldown clock `lastChatTime`. -/
structure ConnSt where
  currentStream : Option String
  lastChatTime : Nat
  deriving DecidableEq

/-- Events emitted through socket.io, made explicit. `snapshot` stands for
the `stream:init` + `chat:init` pair sent to a single socket; the others are
room broadcasts (`stream:line`, `stream:offline`, `viewer:count`,
`chat:message`) or a single-socket `error` message. -/
inductive Ev where
  | line (name : String) (l : Line)
  | offline (name : String)
  | offlineTo (conn : Nat) (name : String)
  | viewerCount (name : String) (count : Nat)
  | chatMsg (name : String) (m : ChatMessage)
  | errMsg (conn : Nat) (msg : String)
  | snapshot (conn : Nat) (lines : List Line) (msgs : List ChatMessage)
  deriving DecidableEq

/-- Association-list lookup, modelling `Map.prototype.get`. -/
def getEntry {α : Type} (m : List (String × α)) (k : String) : Option α :=
  match m with
  | [] => none
  | (k', v') :: rest => if k' = k then some v' else getEntry rest k

/-- Association-list update, modelling `Map.prototype.set` (replace in place
if the key is present, otherwise append a fresh entry). -/
def setEntry {α : Type} (m : List (String × α)) (k : String) (v : α) :
    List (String × α) :=
  match m with
  | [] => [(k, v)]
  | (k', v') :: rest => if k' = k then (k, v) :: rest else (k', v') :: setEntry rest k v

/-- The complete mutable state of the server process. -/
structure SysState where
  streams : List (String × StreamSt)
  chatMessages : List (String × List ChatMessage)
  bannedAgents : Finset String
  rateLimits : List (String × RateWindow)
  ipConnectionCounts : List (String × RateWindow)
  ipStreamCreation : List (String × RateWindow)
  globalStats : GlobalStats
  rooms : String → Finset Nat
  conns : Nat → ConnSt

/-- The state right after process start: every registry empty. -/
def initState : SysState where
  streams := []
  chatMessages := []
  bannedAgents := ∅
  rateLimits := []
  ipConnectionCounts := []
  ipStreamCreation := []
  globalStats := ⟨0, 0, 0, 0, 0⟩
  rooms := fun _ => ∅
  conns := fun _ => ⟨none, 0⟩

/-- `MAX_VIEWERS_PER_STREAM` at its default value 1000. -/
def MAX_VIEWERS_PER_STREAM : Nat := 1000

/-- Name validation `/^[a-zA-Z0-9_]{3,30}$/` from `isValidAgentName`. -/
def isValidAgentName (name : String) : Bool :=
  3 ≤ name.length && name.length ≤ 30 &&
    name.data.all fun c => c.isAlphanum || c = Char.ofNat 95

/-- Character-level HTML escaping.  The source applies five sequential
global `String.replace` passes (`&`, `<`, `>`, `"`, `'` in that order);
since the `&`-pass runs first and no later replacement string contains a
character replaced after it, the chain is equivalent to this single
character-wise expansion. -/
def escapeChar (c : Char) : List Char :=
  if c = Char.ofNat 38 then "&amp;".data
  else if c = Char.ofNat 60 then "&lt;".data
  else if c = Char.ofNat 62 then "&gt;".data
  else if c = Char.ofNat 34 then "&quot;".data
  else if c = Char.ofNat 39 then "&#039;".data
  else [c]

/-- `escapeHtml` from the source; `if (!text) return ''` collapses to the
empty-string check on `String` inputs. -/
def escapeHtml (text : String) : String :=
  if text = "" then "" else ⟨text.data.flatMap escapeChar⟩

/-- JS `text.slice(0, n)`, on the character-list model of strings. -/
def jsTake (s : String) (n : Nat) : String :=
  ⟨s.data.take n⟩

/-- Whitespace for JS `String.prototype.trim` (space, tab, LF, CR). -/
def isJsWs (c : Char) : Bool :=
  c = Char.ofNat 32 || c = Char.ofNat 9 || c = Char.ofNat 10 || c = Char.ofNat 13

/-- JS `text.trim()`: strip leading and trailing whitespace. -/
def jsTrim (s : String) : String :=
  ⟨((s.data.dropWhile isJsWs).reverse.dropWhile isJsWs).reverse⟩

/-- Pseudonym derivation `hashSocketId`: `'anon_' + md5(socketId).slice(0,8)`.
The md5-hex prefix is modelled by the decimal rendering of the numeric
socket id; no claim inspects the digest itself, only that the derivation is
a function of the socket id alone. -/
def hashSocketId (socketId : Nat) : String :=
  "anon_" ++ toString socketId

/-- The generic fixed-window check shared verbatim by `checkStreamRateLimit`,
`checkIPConnectionLimit` and `checkIPStreamCreationLimit`: fresh or expired
window ⇒ install `{count: 1, resetTime: now + windowMs}` and allow; at the
cap ⇒ deny without touching the table; below the cap ⇒ increment and allow.
Returns the allow/deny flag together with the updated table. -/
def rlCheck (m : List (String × RateWindow)) (key : String) (now windowMs maxCount : Nat) :
    Bool × List (String × RateWindow) :=
  match getEntry m key with
  | none => (true, setEntry m key ⟨1, now + windowMs⟩)
  | some w =>
    if now > w.resetTime then (true, setEntry m key ⟨1, now + windowMs⟩)
    else if w.count ≥ maxCount then (false, m)
    else (true, setEntry m key ⟨w.count + 1, w.resetTime⟩)

/-- `checkStreamRateLimit(agentName)`: 100 messages per 60 s per name. -/
def checkStreamRateLimit (m : List (String × RateWindow)) (agentName : String)
    (now : Nat) : Bool × List (String × RateWindow) :=
  rlCheck m agentName now 60000 100

/-- `checkIPConnectionLimit(ip)`: 10 connections per 60 s per IP. -/
def checkIPConnectionLimit (m : List (String × RateWindow)) (ip : String)
    (now : Nat) : Bool × List (String × RateWindow) :=
  rlCheck m ip now 60000 10

/-- `checkIPStreamCreationLimit(ip)`: 10 new streams per hour per IP. -/
def checkIPStreamCreationLimit (m : List (String × RateWindow)) (ip : String)
    (now : Nat) : Bool × List (String × RateWindow) :=
  rlCheck m ip now 3600000 10

/-- Outcome of the send endpoint `POST /api/stream/:agentname/send`,
one constructor per response branch. -/
inductive SendResult where
  | created (token : Nat)
  | accepted
  | invalidName
  | bannedAgent
  | textRequired
  | textTooLong
  | invalidType
  | authError
  | rateLimited
  | creationLimited
  deriving Repr, DecidableEq

/-- Result of one send-handler execution: the state after it, the HTTP
response, and the socket events it broadcast. -/
structure SendOut where
  state : SysState
  result : SendResult
  events : List Ev

/-- Mutation of an existing session on the accepted send path: reactivate if
offline (stamping a new `startedAt`), append the escaped line, bump
`totalMessages` and `lastActivity`, then trim to the last 500 lines
(`lines.shift()` drops the oldest). -/
def appendLine (stream : StreamSt) (now : Nat) (text ty : String) : StreamSt :=
  let stream1 :=
    if ¬ stream.active then { stream with active := true, startedAt := now }
    else stream
  let stream2 := { stream1 with
    lines := stream1.lines ++ [⟨now, escapeHtml text, ty⟩],
    stats := { stream1.stats with totalMessages := stream1.stats.totalMessages + 1 },
    lastActivity := now }
  if stream2.lines.length > 500 then { stream2 with lines := stream2.lines.tail }
  else stream2

/-- The send handler `app.post('/api/stream/:agentname/send')`, translated
branch by branch.  `freshToken` stands for the value `generateToken()` would
produce on the creation path; `now` for `Date.now()`. -/
def sendOp (s : SysState) (agentName : String) (token : Option Nat) (text : String)
    (ty : String) (clientIP : String) (freshToken : Nat) (now : Nat) : SendOut :=
  if ¬ isValidAgentName agentName then ⟨s, .invalidName, []⟩
  else if agentName ∈ s.bannedAgents then ⟨s, .bannedAgent, []⟩
  else if text = "" then ⟨s, .textRequired, []⟩
  else if text.length > 500 then ⟨s, .textTooLong, []⟩
  else if ¬ (ty = "log" ∨ ty = "tool" ∨ ty = "thought") then ⟨s, .invalidType, []⟩
  else
    match getEntry s.streams agentName with
    | none =>
      let chk := checkIPStreamCreationLimit s.ipStreamCreation clientIP now
      if ¬ chk.1 then ⟨s, .creationLimited, []⟩
      else
        let line : Line := ⟨now, escapeHtml text, ty⟩
        let st : StreamSt :=
          { token := freshToken, active := true, lines := [line], viewers := ∅,
            startedAt := now, lastActivity := now,
            stats := { peakViewers := 0, totalMessages := 1 } }
        let g := s.globalStats
        let s' := { s with
          ipStreamCreation := chk.2,
          streams := setEntry s.streams agentName st,
          globalStats := { g with
            totalStreamsToday := g.totalStreamsToday + 1,
            totalMessagesToday := g.totalMessagesToday + 1 } }
        ⟨s', .created freshToken, [Ev.line agentName line]⟩
    | some stream =>
      if token ≠ some stream.token then ⟨s, .authError, []⟩
      else
        let chk := checkStreamRateLimit s.rateLimits agentName now
        if ¬ chk.1 then ⟨{ s with rateLimits := chk.2 }, .rateLimited, []⟩
        else
          let g := s.globalStats
          let s' := { s with
            rateLimits := chk.2,
            streams := setEntry s.streams agentName (appendLine stream now text ty),
            globalStats := { g with totalMessagesToday := g.totalMessagesToday + 1 } }
          ⟨s', .accepted, [Ev.line agentName ⟨now, escapeHtml text, ty⟩]⟩

/-- Token rotation `POST /api/stream/:agentname/rotate`: returns the new
token on success, `none` on 404 (unknown name) or 401 (old token mismatch). -/
def rotateOp (s : SysState) (agentName : String) (oldToken : Option Nat)
    (freshToken : Nat) : SysState × Option Nat :=
  match getEntry s.streams agentName with
  | none => (s, none)
  | some stream =>
    if oldToken ≠ some stream.token then (s, none)
    else
      ({ s with streams := setEntry s.streams agentName { stream with token := freshToken } },
       some freshToken)

/-- Admin ban `POST /api/admin/ban/:agentname`: add to the ban set and, when
the stream exists and is active, force it offline and broadcast
`stream:offline`. -/
def banOp (s : SysState) (agentName : String) : SysState × List Ev :=
  let s1 := { s with bannedAgents := insert agentName s.bannedAgents }
  match getEntry s1.streams agentName with
  | some stream =>
    if stream.active then
      ({ s1 with streams := setEntry s1.streams agentName { stream with active := false } },
       [Ev.offline agentName])
    else (s1, [])
  | none => (s1, [])

/-- Admin unban `POST /api/admin/unban/:agentname`: remove from the ban set
only; the stream map is untouched. -/
def unbanOp (s : SysState) (agentName : String) : SysState × List Ev :=
  ({ s with bannedAgents := s.bannedAgents.erase agentName }, [])

/-- Admin end `POST /api/admin/stream/:agentname/end`: set the stream
offline unconditionally and broadcast `stream:offline`. -/
def endOp (s : SysState) (agentName : String) : SysState × List Ev :=
  match getEntry s.streams agentName with
  | none => (s, [])
  | some stream =>
    ({ s with streams := setEntry s.streams agentName { stream with active := false } },
     [Ev.offline agentName])

/-- `INACTIVE_TIMEOUT = 5 * 60 * 1000`. -/
def INACTIVE_TIMEOUT : Nat := 5 * 60 * 1000

/-- One entry of the inactivity sweep: an active stream idle for more than
`INACTIVE_TIMEOUT` goes offline, everything else is untouched. -/
def sweepEntry (now : Nat) (e : String × StreamSt) : String × StreamSt :=
  if e.2.active ∧ now - e.2.lastActivity > INACTIVE_TIMEOUT then
    (e.1, { e.2 with active := false })
  else e

/-- The timed-out-stream sweep (`setInterval`, every 60 s): walk all
streams, flip the idle active ones offline and broadcast `stream:offline`
for each. -/
def sweepOp (s : SysState) (now : Nat) : SysState × List Ev :=
  ({ s with streams := s.streams.map (sweepEntry now) },
   s.streams.filterMap fun e =>
     if e.2.active ∧ now - e.2.lastActivity > INACTIVE_TIMEOUT then some (Ev.offline e.1)
     else none)

/-- Hour-of-day of a millisecond timestamp (`Date.getHours`, UTC model). -/
def hoursOf (t : Nat) : Nat := t / 3600000 % 24

/-- Minute-of-hour of a millisecond timestamp (`Date.getMinutes`). -/
def minutesOf (t : Nat) : Nat := t / 60000 % 60

/-- Milliseconds in one calendar day. -/
def MS_PER_DAY : Nat := 86400000

/-- Calendar day index of a timestamp. -/
def dayOf (t : Nat) : Nat := t / MS_PER_DAY

/-- The daily stats reset tick (`setInterval`, every 60 s): fires only when
the tick's wall-clock time reads hours = 0 and minutes = 0, and then zeroes
`totalStreamsToday`, `peakConcurrentViewers` and `totalMessagesToday`,
stamping `lastReset`; `allTimePeakViewers` is not touched. -/
def dailyResetTick (g : GlobalStats) (now : Nat) : GlobalStats :=
  if hoursOf now = 0 ∧ minutesOf now = 0 then
    { totalStreamsToday := 0, peakConcurrentViewers := 0,
      allTimePeakViewers := g.allTimePeakViewers,
      totalMessagesToday := 0, lastReset := now }
  else g

/-- The daily reset as a whole-state operation. -/
def tickOp (s : SysState) (now : Nat) : SysState :=
  { s with globalStats := dailyResetTick s.globalStats now }

/-- `getCurrentViewerCount()`: total viewers across active streams. -/
def getCurrentViewerCount (streams : List (String × StreamSt)) : Nat :=
  streams.foldl (fun acc e => if e.2.active then acc + e.2.viewers.card else acc) 0

/-- `updatePeakViewers()`: bump the global day-scoped and all-time peak
concurrent viewer counters. -/
def updatePeakViewers (s : SysState) : SysState :=
  let current := getCurrentViewerCount s.streams
  let g1 :=
    if current > s.globalStats.peakConcurrentViewers then
      { s.globalStats with peakConcurrentViewers := current }
    else s.globalStats
  let g2 :=
    if current > g1.allTimePeakViewers then { g1 with allTimePeakViewers := current }
    else g1
  { s with globalStats := g2 }

/-- The leave-previous-room block at the top of the `join` handler: when the
socket already watches a stream, take it out of that room, and when that
stream still exists delete the socket from its viewer set and broadcast the
new count. -/
def leavePrevious (s : SysState) (conn : Nat) : SysState × List Ev :=
  match (s.conns conn).currentStream with
  | none => (s, [])
  | some prev =>
    let s' := { s with
      rooms := fun r => if r = prev then (s.rooms prev).erase conn else s.rooms r }
    match getEntry s'.streams prev with
    | none => (s', [])
    | some pst =>
      let pst' := { pst with viewers := pst.viewers.erase conn }
      ({ s' with streams := setEntry s'.streams prev pst' },
       [Ev.viewerCount prev pst'.viewers.card])

/-- The `currentStream = agentName; socket.join(room)` pair of the `join`
handler: point the socket at the new stream and enter its broadcast room. -/
def pointAt (s : SysState) (conn : Nat) (agentName : String) : SysState :=
  { s with
    conns := fun c =>
      if c = conn then { s.conns c with currentStream := some agentName } else s.conns c,
    rooms := fun r => if r = agentName then insert conn (s.rooms r) else s.rooms r }

/-- The `socket.on('join')` handler.  Order follows the source: validate the
name; leave the previous room and viewer set (broadcasting the new count);
point `currentStream` at the new name and enter its broadcast room; then,
if the stream exists, reject with a capacity error when the viewer set is
already at `MAX_VIEWERS_PER_STREAM`, otherwise add the viewer, update peaks,
send the snapshot (`stream:init` + `chat:init`) and broadcast the count. -/
def joinOp (s : SysState) (conn : Nat) (agentName : String) : SysState × List Ev :=
  if ¬ isValidAgentName agentName then (s, [Ev.errMsg conn "Invalid stream name"])
  else
    let step1 := leavePrevious s conn
    let s2 := pointAt step1.1 conn agentName
    match getEntry s2.streams agentName with
    | none => (s2, step1.2 ++ [Ev.snapshot conn [] []])
    | some stream =>
      if stream.viewers.card ≥ MAX_VIEWERS_PER_STREAM then
        (s2, step1.2 ++ [Ev.errMsg conn "Stream at capacity, try again later"])
      else
        let stream1 := { stream with viewers := insert conn stream.viewers }
        let stream2 :=
          if stream1.viewers.card > stream1.stats.peakViewers then
            { stream1 with stats := { stream1.stats with peakViewers := stream1.viewers.card } }
          else stream1
        let s3 := updatePeakViewers { s2 with streams := setEntry s2.streams agentName stream2 }
        let evs :=
          [Ev.snapshot conn stream2.lines ((getEntry s3.chatMessages agentName).getD [])] ++
          [Ev.viewerCount agentName stream2.viewers.card] ++
          (if ¬ stream2.active then [Ev.offlineTo conn agentName] else [])
        (s3, step1.2 ++ evs)

/-- The `socket.on('chat:send')` handler: requires a current stream and a
nonempty payload, an existing active stream, and a 6 s cooldown since the
socket's last chat; stamps the cooldown clock, then truncates to 200 chars,
trims and HTML-escapes; a message that survives sanitisation is appended to
the per-stream chat log (FIFO cap 200) and broadcast. -/
def chatOp (s : SysState) (conn : Nat) (text : String) (now : Nat) : SysState × List Ev :=
  match (s.conns conn).currentStream with
  | none => (s, [])
  | some name =>
    if text = "" then (s, [])
    else
      match getEntry s.streams name with
      | none => (s, [Ev.errMsg conn "Stream is offline"])
      | some stream =>
        if ¬ stream.active then (s, [Ev.errMsg conn "Stream is offline"])
        else if now - (s.conns conn).lastChatTime < 6000 then
          (s, [Ev.errMsg conn "Slow down! Wait a few seconds between messages."])
        else
          let s1 := { s with
            conns := fun c =>
              if c = conn then { s.conns c with lastChatTime := now } else s.conns c }
          let sanitizedText := escapeHtml (jsTrim (jsTake text 200))
          if sanitizedText = "" then (s1, [])
          else
            let message : ChatMessage := ⟨hashSocketId conn, sanitizedText, now⟩
            let msgs := (getEntry s1.chatMessages name).getD [] ++ [message]
            let msgs2 := if msgs.length > 200 then msgs.tail else msgs
            ({ s1 with chatMessages := setEntry s1.chatMessages name msgs2 },
             [Ev.chatMsg name message])

/-- The `socket.on('disconnect')` handler: the socket leaves every room
(socket.io behaviour), its closure state dies, and if it was watching an
existing stream it is removed from that viewer set and the new count is
broadcast. -/
def disconnectOp (s : SysState) (conn : Nat) : SysState × List Ev :=
  let base := { s with
    conns := fun c => if c = conn then ⟨none, 0⟩ else s.conns c,
    rooms := fun r => (s.rooms r).erase conn }
  match (s.conns conn).currentStream with
  | none => (base, [])
  | some name =>
    match getEntry s.streams name with
    | none => (base, [])
    | some stream =>
      let stream' := { stream with viewers := stream.viewers.erase conn }
      ({ base with streams := setEntry base.streams name stream' },
       [Ev.viewerCount name stream'.viewers.card])

/-- One serialized handler execution; the Node event loop never interleaves
two of these, so any concurrent schedule is some sequence of `Op`s. -/
inductive Op where
  | opSend (name : String) (tok : Option Nat) (text : String) (ty : String)
      (ip : String) (fresh : Nat) (now : Nat)
  | opRotate (name : String) (old : Option Nat) (fresh : Nat)
  | opJoin (conn : Nat) (name : String)
  | opChat (conn : Nat) (text : String) (now : Nat)
  | opDisconnect (conn : Nat)
  | opBan (name : String)
  | opUnban (name : String)
  | opEnd (name : String)
  | opSweep (now : Nat)
  | opTick (now : Nat)

/-- Apply one operation to the state, discarding response and events. -/
def applyOp (s : SysState) (o : Op) : SysState :=
  match o with
  | .opSend name tok text ty ip fresh now => (sendOp s name tok text ty ip fresh now).state
  | .opRotate name old fresh => (rotateOp s name old fresh).1
  | .opJoin conn name => (joinOp s conn name).1
  | .opChat conn text now => (chatOp s conn text now).1
  | .opDisconnect conn => (disconnectOp s conn).1
  | .opBan name => (banOp s name).1
  | .opUnban name => (unbanOp s name).1
  | .opEnd name => (endOp s name).1
  | .opSweep now => (sweepOp s now).1
  | .opTick now => tickOp s now

/-- The state reached by a sequence of handler executions from process
start. -/
def run (ops : List Op) : SysState :=
  ops.foldl applyOp initState

/-- The rate-limit table after `k` consecutive checks for one key, all made
at the same instant `now`, starting from an empty table. -/
def rlIter (key : String) (now windowMs maxCount : Nat) : Nat → List (String × RateWindow)
  | 0 => []
  | k + 1 => (rlCheck (rlIter key now windowMs maxCount k) key now windowMs maxCount).2

/-- A concrete stream session used by witness instantiations. -/
def exStream : StreamSt where
  token := 42
  active := true
  lines := [⟨0, "hi", "log"⟩]
  viewers := ∅
  startedAt := 0
  lastActivity := 0
  stats := ⟨0, 1⟩

/-- A concrete server state holding one session named `agent_1`. -/
def exState : SysState :=
  { initState with streams := [("agent_1", exStream)] }

/-- A concrete state for chat witnesses: socket 5 watches `agent_1`, whose
chat log holds one message. -/
def exChatState : SysState :=
  { initState with
    streams := [("agent_1", exStream)],
    chatMessages := [("agent_1", [⟨"anon_9", "yo", 0⟩])],
    conns := fun c => if c = 5 then ⟨some "agent_1", 0⟩ else ⟨none, 0⟩ }

/-- A state in which `agent_1` is banned and still has its (active) session. -/
def exBannedState : SysState :=
  { exState with bannedAgents := {"agent_1"} }

/-- The 500-character payload used to refute C7: 84 apostrophes, well under
the 500-character input limit, each escaping to the 6-character `&#039;`. -/
def c7text : String := ⟨List.replicate 84 (Char.ofNat 39)⟩

/-- A concrete stats record with nonzero day counters. -/
def exStats : GlobalStats := ⟨3, 4, 9, 5, 0⟩

/-- The presence invariant: a connection sits in a stream's viewer set only
if its `currentStream` pointer names that stream.  It immediately implies
that a connection belongs to at most one stream's viewer set. -/
def ViewerInv (s : SysState) : Prop :=
  ∀ (c : Nat) (n : String) (st : StreamSt),
    getEntry s.streams n = some st → c ∈ st.viewers →
      (s.conns c).currentStream = some n

/-- The operation sequence used in the C9 witness: create `agent_1` by a
first send, then have socket 5 join it. -/
def c9ops : List Op :=
  [Op.opSend "agent_1" none "hi" "log" "198.51.100.7" 11 0, Op.opJoin 5 "agent_1"]

/-- The session state reached by `c9ops`. -/
def c9stream : StreamSt :=
  ⟨11, true, [⟨0, escapeHtml "hi", "log"⟩], {5}, 0, 0, ⟨1, 1⟩⟩

/-- The previous stream of the C10 witness: socket 5 watches it. -/
def c10prev : StreamSt := ⟨43, true, [], {5}, 0, 0, ⟨1, 0⟩⟩

/-- The full stream of the C10 witness: 1000 viewers, at the default cap. -/
def c10full : StreamSt := ⟨77, true, [], Finset.range 1000, 0, 0, ⟨1000, 0⟩⟩

/-- The C10 witness state: socket 5 watches `agent_2`; `agent_1` is full. -/
def c10state : SysState :=
  { initState with
    streams := [("agent_2", c10prev), ("agent_1", c10full)],
    conns := fun c => if c = 5 then ⟨some "agent_2", 0⟩ else ⟨none, 0⟩,
    rooms := fun r => if r = "agent_2" then {5} else ∅ }

theorem getEntry_setEntry_same {α : Type} (m : List (String × α)) (k : String) (v : α) :
    getEntry (setEntry m k v) k = some v := by
  induction m with
  | nil => simp [getEntry, setEntry]
  | cons hd tl ih =>
    obtain ⟨k', v'⟩ := hd
    by_cases h : k' = k
    · simp [getEntry, setEntry, h]
    · simp [getEntry, setEntry, h, ih]

theorem getEntry_setEntry_other {α : Type} (m : List (String × α)) (k k' : String)
    (v : α) (hne : k' ≠ k) :
    getEntry (setEntry m k v) k' = getEntry m k' := by
  induction m with
  | nil => simp [getEntry, setEntry, Ne.symm hne]
  | cons hd tl ih =>
    obtain ⟨k0, v0⟩ := hd
    by_cases h : k0 = k
    · subst h
      simp [getEntry, setEntry, Ne.symm hne]
    · by_cases h' : k0 = k'
      · simp [getEntry, setEntry, h, h', hne]
      · simp [getEntry, setEntry, h, h', ih]

theorem isValidAgentName_example : isValidAgentName "agent_1" = true := by decide

theorem escapeHtml_example : escapeHtml "a&b" = "a&amp;b" := by decide

/-- Unfolding lemma: `rlCheck` when the key has no window entry. -/
theorem rlCheck_none (m : List (String × RateWindow)) (key : String)
    (now windowMs maxCount : Nat) (h : getEntry m key = none) :
    rlCheck m key now windowMs maxCount = (true, setEntry m key ⟨1, now + windowMs⟩) := by
  unfold rlCheck
  rw [h]

/-- Unfolding lemma: `rlCheck` when the key has a window entry. -/
theorem rlCheck_some (m : List (String × RateWindow)) (key : String)
    (now windowMs maxCount : Nat) (w : RateWindow) (h : getEntry m key = some w) :
    rlCheck m key now windowMs maxCount =
      if now > w.resetTime then (true, setEntry m key ⟨1, now + windowMs⟩)
      else if w.count ≥ maxCount then (false, m)
      else (true, setEntry m key ⟨w.count + 1, w.resetTime⟩) := by
  unfold rlCheck
  rw [h]

/-- After `k` same-instant checks the key's window holds count
`min k maxCount` and reset time `now + windowMs` (no entry when `k = 0`). -/
theorem rlIter_getEntry (key : String) (now windowMs maxCount : Nat) (hmc : 1 ≤ maxCount) :
    ∀ k, getEntry (rlIter key now windowMs maxCount k) key =
      if k = 0 then none else some ⟨min k maxCount, now + windowMs⟩
  | 0 => rfl
  | k + 1 => by
    have ih := rlIter_getEntry key now windowMs maxCount hmc k
    by_cases hk : k = 0
    · subst hk
      have h1 : min 1 maxCount = 1 := by omega
      simp [rlIter, rlCheck, getEntry, getEntry_setEntry_same, h1]
    · rw [rlIter, rlCheck_some (rlIter key now windowMs maxCount k) key now windowMs
        maxCount ⟨min k maxCount, now + windowMs⟩ (by rw [ih, if_neg hk])]
      have hnot : ¬ now > now + windowMs := by omega
      rw [if_neg hnot]
      by_cases hge : min k maxCount ≥ maxCount
      · rw [if_pos hge]
        rw [show ((false, rlIter key now windowMs maxCount k) :
          Bool × List (String × RateWindow)).2 = rlIter key now windowMs maxCount k from rfl]
        rw [ih, if_neg hk, if_neg (Nat.succ_ne_zero k)]
        have : min k maxCount = min (k + 1) maxCount := by omega
        rw [this]
      · rw [if_neg hge]
        rw [show ((true, setEntry (rlIter key now windowMs maxCount k) key
          ⟨min k maxCount + 1, now + windowMs⟩) : Bool × List (String × RateWindow)).2 =
          setEntry (rlIter key now windowMs maxCount k) key
            ⟨min k maxCount + 1, now + windowMs⟩ from rfl]
        rw [getEntry_setEntry_same, if_neg (Nat.succ_ne_zero k)]
        have : min k maxCount + 1 = min (k + 1) maxCount := by omega
        rw [this]

/-- The `(k+1)`-st same-instant check for a key is allowed exactly when the
first `k` have not yet reached the cap. -/
theorem rlIter_allow (key : String) (now windowMs maxCount k : Nat) (hmc : 1 ≤ maxCount) :
    (rlCheck (rlIter key now windowMs maxCount k) key now windowMs maxCount).1 =
      decide (k < maxCount) := by
  by_cases hk : k = 0
  · subst hk
    have h0 : 0 < maxCount := hmc
    simp [rlIter, rlCheck, getEntry, h0]
  · rw [rlCheck_some (rlIter key now windowMs maxCount k) key now windowMs
      maxCount ⟨min k maxCount, now + windowMs⟩
      (by rw [rlIter_getEntry key now windowMs maxCount hmc k, if_neg hk])]
    have hnot : ¬ now > now + windowMs := by omega
    rw [if_neg hnot]
    by_cases hge : min k maxCount ≥ maxCount
    · rw [if_pos hge]
      have : ¬ k < maxCount := by omega
      simp [this]
    · rw [if_neg hge]
      have : k < maxCount := by omega
      simp [this]

/-- Deny leaves the table untouched: after 100 same-instant calls the 101st
`checkStreamRateLimit` returns the table unchanged. -/
theorem rlIter_deny_no_mutation (key : String) (now : Nat) :
    (checkStreamRateLimit (rlIter key now 60000 100 100) key now).2 =
      rlIter key now 60000 100 100 := by
  rw [checkStreamRateLimit, rlCheck_some (rlIter key now 60000 100 100) key now 60000 100
    ⟨min 100 100, now + 60000⟩
    (by rw [rlIter_getEntry key now 60000 100 (by omega) 100]; simp)]
  have hnot : ¬ now > now + 60000 := by omega
  rw [if_neg hnot, if_pos (by omega : min 100 100 ≥ 100)]

/-- C3.  The fixed-window rate limiter: a missing or expired window is
replaced by a fresh `{count := 1, resetTime := now + windowMs}` and the call
is allowed; an in-window call at the cap is denied without mutating the
table; an in-window call below the cap increments the count and is allowed.
Instantiated at (window 60 s, max 100): the `(k+1)`-st same-instant call for
one key is allowed exactly when `k < 100` (so the 101st is denied, leaving
the table unchanged), and the first call after the window has elapsed is
allowed and resets the key's window to count 1. -/
theorem C3_rate_limiter_fixed_window
    (m : List (String × RateWindow)) (key : String) (now windowMs maxCount : Nat)
    (w : RateWindow) (k t2 : Nat) :
    (getEntry m key = none →
      rlCheck m key now windowMs maxCount = (true, setEntry m key ⟨1, now + windowMs⟩)) ∧
    (getEntry m key = some w → now > w.resetTime →
      rlCheck m key now windowMs maxCount = (true, setEntry m key ⟨1, now + windowMs⟩)) ∧
    (getEntry m key = some w → ¬ now > w.resetTime → w.count ≥ maxCount →
      rlCheck m key now windowMs maxCount = (false, m)) ∧
    (getEntry m key = some w → ¬ now > w.resetTime → w.count < maxCount →
      rlCheck m key now windowMs maxCount = (true, setEntry m key ⟨w.count + 1, w.resetTime⟩)) ∧
    ((checkStreamRateLimit (rlIter key now 60000 100 k) key now).1 = decide (k < 100)) ∧
    ((checkStreamRateLimit (rlIter key now 60000 100 100) key now).2 =
      rlIter key now 60000 100 100) ∧
    (t2 > now + 60000 →
      (checkStreamRateLimit (rlIter key now 60000 100 100) key t2).1 = true ∧
      getEntry (checkStreamRateLimit (rlIter key now 60000 100 100) key t2).2 key =
        some ⟨1, t2 + 60000⟩) := by
  refine ⟨?_, ?_, ?_, ?_, ?_, ?_, ?_⟩
  · intro h
    exact rlCheck_none m key now windowMs maxCount h
  · intro h hexp
    rw [rlCheck_some m key now windowMs maxCount w h, if_pos hexp]
  · intro h hexp hcap
    rw [rlCheck_some m key now windowMs maxCount w h, if_neg hexp, if_pos hcap]
  · intro h hexp hlt
    rw [rlCheck_some m key now windowMs maxCount w h, if_neg hexp,
      if_neg (by omega : ¬ w.count ≥ maxCount)]
  · exact rlIter_allow key now 60000 100 k (by omega)
  · exact rlIter_deny_no_mutation key now
  · intro ht
    have hgm : getEntry (rlIter key now 60000 100 100) key =
        some ⟨min 100 100, now + 60000⟩ := by
      rw [rlIter_getEntry key now 60000 100 (by omega) 100]
      simp
    rw [checkStreamRateLimit]
    generalize hM : rlIter key now 60000 100 100 = M at hgm ⊢
    rw [rlCheck_some M key t2 60000 100 ⟨min 100 100, now + 60000⟩ hgm]
    have hrt : t2 > (RateWindow.mk (min 100 100) (now + 60000)).resetTime := by
      show t2 > now + 60000
      omega
    rw [if_pos hrt]
    exact ⟨rfl, getEntry_setEntry_same _ _ _⟩

/-- Witness for C3 at a concrete key and clock: the 101st same-instant call
is denied, and a call one millisecond after the window end is allowed with a
fresh count of 1. -/
theorem C3_witness :
    (checkStreamRateLimit (rlIter "nova" 0 60000 100 100) "nova" 0).1 = false ∧
    (checkStreamRateLimit (rlIter "nova" 0 60000 100 100) "nova" 60001).1 = true ∧
    getEntry (checkStreamRateLimit (rlIter "nova" 0 60000 100 100) "nova" 60001).2 "nova" =
      some ⟨1, 120001⟩ := by
  have h := C3_rate_limiter_fixed_window [] "nova" 0 60000 100 ⟨0, 0⟩ 100 60001
  refine ⟨?_, ?_, ?_⟩
  · have h4 := h.2.2.2.2.1
    simpa using h4
  · exact (h.2.2.2.2.2.2 (by omega)).1
  · have h7 := (h.2.2.2.2.2.2 (by omega)).2
    simpa using h7

/-- C1.  A send for an existing session whose supplied token differs from
the stored one returns the 401 `Invalid token` response (AuthError) and
leaves the entire server state untouched — the session's lines,
totalMessages, lastActivity, active flag and token, the global stats and
the rate-limit tables included — and emits no event. -/
theorem C1_send_wrong_token_rejected_no_mutation (s : SysState) (agentName : String)
    (token : Option Nat) (text : String) (ty : String) (ip : String)
    (fresh now : Nat) (stream : StreamSt)
    (hname : isValidAgentName agentName = true)
    (hban : agentName ∉ s.bannedAgents)
    (htext : text ≠ "")
    (hlen : ¬ text.length > 500)
    (hty : ty = "log" ∨ ty = "tool" ∨ ty = "thought")
    (hs : getEntry s.streams agentName = some stream)
    (htok : token ≠ some stream.token) :
    (sendOp s agentName token text ty ip fresh now).state = s ∧
    (sendOp s agentName token text ty ip fresh now).result = SendResult.authError ∧
    (sendOp s agentName token text ty ip fresh now).events = [] := by
  rcases hty with h | h | h <;> subst h <;>
    simp [sendOp, hname, hban, htext, hlen, hs, htok]

/-- Witness for C1: in the one-session state `exState` (token 42), a send
with token 7 is rejected as AuthError and the state is returned as is. -/
theorem C1_witness :
    (sendOp exState "agent_1" (some 7) "hello" "log" "203.0.113.5" 1 5).state = exState ∧
    (sendOp exState "agent_1" (some 7) "hello" "log" "203.0.113.5" 1 5).result =
      SendResult.authError ∧
    (sendOp exState "agent_1" (some 7) "hello" "log" "203.0.113.5" 1 5).events = [] :=
  C1_send_wrong_token_rejected_no_mutation exState "agent_1" (some 7) "hello" "log"
    "203.0.113.5" 1 5 exStream (by decide)
    (by simp [exState, initState])
    (by decide) (by decide) (Or.inl rfl)
    (by simp [exState, initState, getEntry])
    (by decide)

/-- A key with no entry occurs zero times in the table. -/
theorem getEntry_none_countP {α : Type} (m : List (String × α)) (k : String)
    (h : getEntry m k = none) : m.countP (fun e => e.1 == k) = 0 := by
  induction m with
  | nil => rfl
  | cons hd tl ih =>
    obtain ⟨k0, v0⟩ := hd
    by_cases hk : k0 = k
    · simp [getEntry, hk] at h
    · rw [getEntry, if_neg hk] at h
      simp [List.countP_cons, hk, ih h]

/-- Setting an absent key appends it: afterwards it occurs exactly once. -/
theorem countP_setEntry_none {α : Type} (m : List (String × α)) (k : String) (v : α)
    (h : getEntry m k = none) :
    (setEntry m k v).countP (fun e => e.1 == k) = 1 := by
  induction m with
  | nil => simp [setEntry, List.countP_cons]
  | cons hd tl ih =>
    obtain ⟨k0, v0⟩ := hd
    by_cases hk : k0 = k
    · simp [getEntry, hk] at h
    · rw [getEntry, if_neg hk] at h
      simp [setEntry, hk, List.countP_cons, ih h]

/-- Setting a present key replaces it in place: the occurrence count of the
key is unchanged. -/
theorem countP_setEntry_some {α : Type} (m : List (String × α)) (k : String) (v w : α)
    (h : getEntry m k = some w) :
    (setEntry m k v).countP (fun e => e.1 == k) = m.countP (fun e => e.1 == k) := by
  induction m with
  | nil => simp [getEntry] at h
  | cons hd tl ih =>
    obtain ⟨k0, v0⟩ := hd
    by_cases hk : k0 = k
    · subst hk
      simp [setEntry, List.countP_cons]
    · rw [getEntry, if_neg hk] at h
      simp [setEntry, hk, List.countP_cons, ih h]

/-- `appendLine` never touches the token. -/
theorem appendLine_token (stream : StreamSt) (now : Nat) (text ty : String) :
    (appendLine stream now text ty).token = stream.token := by
  by_cases h : stream.active <;> simp [appendLine, h] <;> split <;> rfl

/-- The lines after `appendLine`: push the new escaped line, then drop the
oldest one when the result exceeds 500. -/
theorem appendLine_lines (stream : StreamSt) (now : Nat) (text ty : String) :
    (appendLine stream now text ty).lines =
      if (stream.lines ++ [(⟨now, escapeHtml text, ty⟩ : Line)]).length > 500
      then (stream.lines ++ [(⟨now, escapeHtml text, ty⟩ : Line)]).tail
      else stream.lines ++ [(⟨now, escapeHtml text, ty⟩ : Line)] := by
  unfold appendLine
  by_cases h : stream.active <;> simp [h, apply_ite StreamSt.lines]

/-- Shape of `sendOp` on the creation path (no session for the name yet and
the per-IP creation limit allows). -/
theorem sendOp_creates (s : SysState) (agentName : String) (token : Option Nat)
    (text ty ip : String) (fresh now : Nat)
    (hname : isValidAgentName agentName = true)
    (hban : agentName ∉ s.bannedAgents)
    (htext : text ≠ "")
    (hlen : ¬ text.length > 500)
    (hty : ty = "log" ∨ ty = "tool" ∨ ty = "thought")
    (hs : getEntry s.streams agentName = none)
    (hip : (checkIPStreamCreationLimit s.ipStreamCreation ip now).1 = true) :
    sendOp s agentName token text ty ip fresh now =
      ⟨{ s with
          ipStreamCreation := (checkIPStreamCreationLimit s.ipStreamCreation ip now).2,
          streams := setEntry s.streams agentName
            ⟨fresh, true, [⟨now, escapeHtml text, ty⟩], ∅, now, now, ⟨0, 1⟩⟩,
          globalStats := { s.globalStats with
            totalStreamsToday := s.globalStats.totalStreamsToday + 1,
            totalMessagesToday := s.globalStats.totalMessagesToday + 1 } },
        .created fresh, [Ev.line agentName ⟨now, escapeHtml text, ty⟩]⟩ := by
  rcases hty with h | h | h <;> subst h <;>
    simp only [sendOp, hs] <;>
    rw [if_neg (by simp [hname]), if_neg (by simp [hban]), if_neg (by simp [htext]),
      if_neg hlen, if_neg (by simp), if_neg (by simp [hip])]

/-- Shape of `sendOp` on the accepted path for an existing session (token
matches, rate limit allows). -/
theorem sendOp_accepted (s : SysState) (agentName : String) (token : Option Nat)
    (text ty ip : String) (fresh now : Nat) (stream : StreamSt)
    (hname : isValidAgentName agentName = true)
    (hban : agentName ∉ s.bannedAgents)
    (htext : text ≠ "")
    (hlen : ¬ text.length > 500)
    (hty : ty = "log" ∨ ty = "tool" ∨ ty = "thought")
    (hs : getEntry s.streams agentName = some stream)
    (htok : token = some stream.token)
    (hrl : (checkStreamRateLimit s.rateLimits agentName now).1 = true) :
    sendOp s agentName token text ty ip fresh now =
      ⟨{ s with
          rateLimits := (checkStreamRateLimit s.rateLimits agentName now).2,
          streams := setEntry s.streams agentName (appendLine stream now text ty),
          globalStats := { s.globalStats with
            totalMessagesToday := s.globalStats.totalMessagesToday + 1 } },
        .accepted, [Ev.line agentName ⟨now, escapeHtml text, ty⟩]⟩ := by
  rcases hty with h | h | h <;> subst h <;>
    simp only [sendOp, hs] <;>
    rw [if_neg (by simp [hname]), if_neg (by simp [hban]), if_neg (by simp [htext]),
      if_neg hlen, if_neg (by simp), if_neg (by simp [htok]), if_neg (by simp [hrl])]

/-- A send against a state that already has a session for the name never
creates: whatever branch it takes, the result is not `created`, the stored
token is untouched, and the number of map entries for the name is
unchanged. -/
theorem sendOp_no_create (s : SysState) (agentName : String) (token : Option Nat)
    (text ty ip : String) (fresh now : Nat) (stream : StreamSt)
    (hs : getEntry s.streams agentName = some stream) :
    (∀ t, (sendOp s agentName token text ty ip fresh now).result ≠ SendResult.created t) ∧
    (∃ st', getEntry (sendOp s agentName token text ty ip fresh now).state.streams agentName =
        some st' ∧ st'.token = stream.token) ∧
    (sendOp s agentName token text ty ip fresh now).state.streams.countP
        (fun e => e.1 == agentName) =
      s.streams.countP (fun e => e.1 == agentName) := by
  simp only [sendOp, hs]
  split_ifs <;>
    first
      | exact ⟨fun t h => SendResult.noConfusion h, ⟨stream, hs, rfl⟩, rfl⟩
      | exact ⟨fun t h => SendResult.noConfusion h,
          ⟨appendLine stream now text ty, getEntry_setEntry_same _ _ _,
            appendLine_token stream now text ty⟩,
          countP_setEntry_some _ _ _ _ hs⟩

/-- C2.  First-send creation is unique: starting from a state with no
session for a valid, unbanned name, the first send creates the session and
returns its fresh token; any second send for the same name — regardless of
its inputs — does not return `created`, leaves the stored token equal to
the first token, and the map still holds exactly one entry for the name.
Handlers never interleave (single-threaded event loop), so any concurrent
pair of first-sends executes as one of the two sequential orders, and this
covers both. -/
theorem C2_first_send_creates_exactly_once
    (s : SysState) (n : String) (text1 ty1 ip1 : String) (fresh1 now1 : Nat)
    (tok2 : Option Nat) (text2 ty2 ip2 : String) (fresh2 now2 : Nat)
    (hs : getEntry s.streams n = none)
    (hname : isValidAgentName n = true)
    (hban : n ∉ s.bannedAgents)
    (htext : text1 ≠ "")
    (hlen : ¬ text1.length > 500)
    (hty : ty1 = "log" ∨ ty1 = "tool" ∨ ty1 = "thought")
    (hip : (checkIPStreamCreationLimit s.ipStreamCreation ip1 now1).1 = true) :
    (sendOp s n none text1 ty1 ip1 fresh1 now1).result = SendResult.created fresh1 ∧
    (∀ t, (sendOp (sendOp s n none text1 ty1 ip1 fresh1 now1).state
        n tok2 text2 ty2 ip2 fresh2 now2).result ≠ SendResult.created t) ∧
    (∃ st, getEntry (sendOp (sendOp s n none text1 ty1 ip1 fresh1 now1).state
        n tok2 text2 ty2 ip2 fresh2 now2).state.streams n = some st ∧ st.token = fresh1) ∧
    (sendOp (sendOp s n none text1 ty1 ip1 fresh1 now1).state
        n tok2 text2 ty2 ip2 fresh2 now2).state.streams.countP (fun e => e.1 == n) = 1 := by
  have h1 := sendOp_creates s n none text1 ty1 ip1 fresh1 now1 hname hban htext hlen hty hs hip
  have hget : getEntry (sendOp s n none text1 ty1 ip1 fresh1 now1).state.streams n =
      some ⟨fresh1, true, [⟨now1, escapeHtml text1, ty1⟩], ∅, now1, now1, ⟨0, 1⟩⟩ := by
    rw [h1]
    exact getEntry_setEntry_same _ _ _
  have h2 := sendOp_no_create (sendOp s n none text1 ty1 ip1 fresh1 now1).state
    n tok2 text2 ty2 ip2 fresh2 now2 _ hget
  refine ⟨by rw [h1], h2.1, h2.2.1, ?_⟩
  rw [h2.2.2, h1]
  exact countP_setEntry_none s.streams n _ hs

/-- Witness for C2: from the empty start state, the first send for
`agent_1` returns `created 11`; a second send does not create, and exactly
one map entry for the name exists afterwards. -/
theorem C2_witness :
    (sendOp initState "agent_1" none "hi" "log" "198.51.100.7" 11 0).result =
      SendResult.created 11 ∧
    (sendOp (sendOp initState "agent_1" none "hi" "log" "198.51.100.7" 11 0).state
      "agent_1" none "yo" "log" "198.51.100.7" 12 1).result ≠ SendResult.created 12 ∧
    (sendOp (sendOp initState "agent_1" none "hi" "log" "198.51.100.7" 11 0).state
      "agent_1" none "yo" "log" "198.51.100.7" 12 1).state.streams.countP
        (fun e => e.1 == "agent_1") = 1 := by
  have h := C2_first_send_creates_exactly_once initState "agent_1" "hi" "log" "198.51.100.7"
    11 0 none "yo" "log" "198.51.100.7" 12 1 rfl (by decide) (by simp [initState])
    (by decide) (by decide) (Or.inl rfl) rfl
  exact ⟨h.1, h.2.1 12, h.2.2.2⟩

/-- Dropping the head of a nonempty list then appending commutes. -/
theorem tail_append_singleton {α : Type} (l : List α) (x : α) (h : l ≠ []) :
    (l ++ [x]).tail = l.tail ++ [x] := by
  cases l with
  | nil => exact absurd rfl h
  | cons a as => rfl

/-- Shape of `chatOp` on the accepted path: the socket watches `name`, the
payload is nonempty, the stream exists and is active, the cooldown has
passed, and the sanitised text is nonempty. -/
theorem chatOp_accepted (s : SysState) (conn : Nat) (text : String) (now : Nat)
    (name : String) (stream : StreamSt)
    (hcs : (s.conns conn).currentStream = some name)
    (htext : text ≠ "")
    (hstream : getEntry s.streams name = some stream)
    (hact : stream.active = true)
    (hcool : ¬ now - (s.conns conn).lastChatTime < 6000)
    (hsan : escapeHtml (jsTrim (jsTake text 200)) ≠ "") :
    (chatOp s conn text now).1.chatMessages =
      setEntry s.chatMessages name
        (if ((getEntry s.chatMessages name).getD [] ++
            [(⟨hashSocketId conn, escapeHtml (jsTrim (jsTake text 200)), now⟩ :
              ChatMessage)]).length > 200
         then ((getEntry s.chatMessages name).getD [] ++
            [(⟨hashSocketId conn, escapeHtml (jsTrim (jsTake text 200)), now⟩ :
              ChatMessage)]).tail
         else (getEntry s.chatMessages name).getD [] ++
            [(⟨hashSocketId conn, escapeHtml (jsTrim (jsTake text 200)), now⟩ :
              ChatMessage)]) := by
  simp only [chatOp, hcs, hstream]
  rw [if_neg (by simp [htext]), if_neg (by simp [hact]), if_neg hcool,
    if_neg (by simp [hsan])]

/-- C4.  Bounded FIFO append: an accepted send keeps the session's stored
lines at no more than 500, and an accepted chat keeps the stream's chat log
at no more than 200; in both cases an append at the capacity evicts exactly
the oldest (front) entry, and below capacity nothing is evicted. -/
theorem C4_capacity_bound_fifo_eviction
    (s : SysState) (agentName : String) (stream : StreamSt) (token : Option Nat)
    (text ty ip : String) (fresh now : Nat)
    (s2 : SysState) (conn : Nat) (ctext cname : String) (cstream : StreamSt) (cnow : Nat)
    (hname : isValidAgentName agentName = true)
    (hban : agentName ∉ s.bannedAgents)
    (htext : text ≠ "")
    (hlen : ¬ text.length > 500)
    (hty : ty = "log" ∨ ty = "tool" ∨ ty = "thought")
    (hs : getEntry s.streams agentName = some stream)
    (htok : token = some stream.token)
    (hrl : (checkStreamRateLimit s.rateLimits agentName now).1 = true)
    (hbound : stream.lines.length ≤ 500)
    (hcs : (s2.conns conn).currentStream = some cname)
    (hct : ctext ≠ "")
    (hcstream : getEntry s2.streams cname = some cstream)
    (hact : cstream.active = true)
    (hcool : ¬ cnow - (s2.conns conn).lastChatTime < 6000)
    (hsan : escapeHtml (jsTrim (jsTake ctext 200)) ≠ "")
    (hcbound : ((getEntry s2.chatMessages cname).getD []).length ≤ 200) :
    (getEntry (sendOp s agentName token text ty ip fresh now).state.streams agentName =
        some (appendLine stream now text ty) ∧
      (appendLine stream now text ty).lines.length ≤ 500 ∧
      (stream.lines.length < 500 →
        (appendLine stream now text ty).lines =
          stream.lines ++ [(⟨now, escapeHtml text, ty⟩ : Line)]) ∧
      (stream.lines.length = 500 →
        (appendLine stream now text ty).lines =
          stream.lines.tail ++ [(⟨now, escapeHtml text, ty⟩ : Line)])) ∧
    (∃ msgs, getEntry (chatOp s2 conn ctext cnow).1.chatMessages cname = some msgs ∧
      msgs.length ≤ 200 ∧
      (((getEntry s2.chatMessages cname).getD []).length < 200 →
        msgs = (getEntry s2.chatMessages cname).getD [] ++
          [(⟨hashSocketId conn, escapeHtml (jsTrim (jsTake ctext 200)), cnow⟩ :
            ChatMessage)]) ∧
      (((getEntry s2.chatMessages cname).getD []).length = 200 →
        msgs = ((getEntry s2.chatMessages cname).getD []).tail ++
          [(⟨hashSocketId conn, escapeHtml (jsTrim (jsTake ctext 200)), cnow⟩ :
            ChatMessage)])) := by
  constructor
  · have hsend := sendOp_accepted s agentName token text ty ip fresh now stream
      hname hban htext hlen hty hs htok hrl
    refine ⟨by rw [hsend]; exact getEntry_setEntry_same _ _ _, ?_, ?_, ?_⟩
    · rw [appendLine_lines]
      split
      · next hgt =>
        rw [List.length_tail]
        simp only [List.length_append, List.length_singleton] at hgt ⊢
        omega
      · next hgt =>
        simp only [List.length_append, List.length_singleton] at hgt ⊢
        omega
    · intro hlt
      rw [appendLine_lines, if_neg (by simp; omega)]
    · intro heq
      rw [appendLine_lines, if_pos (by simp [heq])]
      exact tail_append_singleton _ _ (by intro hnil; rw [hnil] at heq; simp at heq)
  · have hchat := chatOp_accepted s2 conn ctext cnow cname cstream
      hcs hct hcstream hact hcool hsan
    refine ⟨_, by rw [hchat]; exact getEntry_setEntry_same _ _ _, ?_, ?_, ?_⟩
    · split
      · next hgt =>
        rw [List.length_tail]
        simp only [List.length_append, List.length_singleton] at hgt ⊢
        omega
      · next hgt =>
        simp only [List.length_append, List.length_singleton] at hgt ⊢
        omega
    · intro hlt
      rw [if_neg (by simp; omega)]
    · intro heq
      rw [if_pos (by simp [heq])]
      exact tail_append_singleton _ _ (by intro hnil; rw [hnil] at heq; simp at heq)

/-- Witness for C4: an accepted send appends to the one-line session and
stays within bound, and an accepted chat appends to the one-message log. -/
theorem C4_witness :
    getEntry (sendOp exState "agent_1" (some 42) "hello" "log" "203.0.113.5" 1 5).state.streams
        "agent_1" = some (appendLine exStream 5 "hello" "log") ∧
    (appendLine exStream 5 "hello" "log").lines.length ≤ 500 ∧
    (appendLine exStream 5 "hello" "log").lines =
      exStream.lines ++ [(⟨5, escapeHtml "hello", "log"⟩ : Line)] ∧
    getEntry (chatOp exChatState 5 "nice" 7000).1.chatMessages "agent_1" =
      some ((getEntry exChatState.chatMessages "agent_1").getD [] ++
        [(⟨hashSocketId 5, escapeHtml (jsTrim (jsTake "nice" 200)), 7000⟩ : ChatMessage)]) := by
  have h := C4_capacity_bound_fifo_eviction exState "agent_1" exStream (some 42)
    "hello" "log" "203.0.113.5" 1 5 exChatState 5 "nice" "agent_1" exStream 7000
    (by decide) (by decide) (by decide) (by decide) (Or.inl rfl)
    rfl rfl rfl (by decide)
    rfl (by decide) rfl rfl (by decide) (by decide) (by decide)
  obtain ⟨⟨h1, h2, h3, _⟩, msgs, hm, _, hlt, _⟩ := h
  exact ⟨h1, h2, h3 (by decide), by rw [hm]; exact congrArg some (hlt (by decide))⟩

/-- C5.  The ban overlay: banning a name whose session is active forces it
offline at once and broadcasts `stream:offline`; while a name is in the ban
set, every send for it — whatever token it carries — is rejected with the
banned error and no state change; unbanning only removes the name from the
ban set and leaves the stream map untouched, so it does not reactivate the
session. -/
theorem C5_ban_forces_offline_blocks_sends (s : SysState) (n : String) (stream : StreamSt)
    (s2 : SysState) (token : Option Nat) (text ty ip : String) (fresh now : Nat)
    (s3 : SysState)
    (hstream : getEntry s.streams n = some stream)
    (hactive : stream.active = true)
    (hname : isValidAgentName n = true)
    (hban2 : n ∈ s2.bannedAgents) :
    (getEntry (banOp s n).1.streams n = some { stream with active := false } ∧
      (banOp s n).1.bannedAgents = insert n s.bannedAgents ∧
      (banOp s n).2 = [Ev.offline n]) ∧
    ((sendOp s2 n token text ty ip fresh now).state = s2 ∧
      (sendOp s2 n token text ty ip fresh now).result = SendResult.bannedAgent ∧
      (sendOp s2 n token text ty ip fresh now).events = []) ∧
    ((unbanOp s3 n).1.bannedAgents = s3.bannedAgents.erase n ∧
      (unbanOp s3 n).1.streams = s3.streams ∧
      (unbanOp s3 n).2 = []) := by
  refine ⟨?_, ?_, rfl, rfl, rfl⟩
  · simp only [banOp, hstream, hactive]
    exact ⟨getEntry_setEntry_same _ _ _, rfl, rfl⟩
  · rw [sendOp, if_neg (by simp [hname]), if_pos hban2]
    exact ⟨rfl, rfl, rfl⟩

/-- Witness for C5: banning the live `agent_1` session flips it offline and
emits the offline event; with `agent_1` banned even the correct token 42 is
rejected with no state change; unban leaves the stream map as it was. -/
theorem C5_witness :
    getEntry (banOp exState "agent_1").1.streams "agent_1" =
      some { exStream with active := false } ∧
    (banOp exState "agent_1").2 = [Ev.offline "agent_1"] ∧
    (sendOp exBannedState "agent_1" (some 42) "hello" "log" "203.0.113.5" 1 5).state =
      exBannedState ∧
    (sendOp exBannedState "agent_1" (some 42) "hello" "log" "203.0.113.5" 1 5).result =
      SendResult.bannedAgent ∧
    (unbanOp exBannedState "agent_1").1.streams = exBannedState.streams := by
  have h := C5_ban_forces_offline_blocks_sends exState "agent_1" exStream exBannedState
    (some 42) "hello" "log" "203.0.113.5" 1 5 exBannedState rfl rfl (by decide) (by decide)
  exact ⟨h.1.1, h.1.2.2, h.2.1.1, h.2.1.2.1, h.2.2.2.1⟩

/-- Unfolding `sweepEntry` at a literal pair. -/
theorem sweepEntry_eq (now : Nat) (k : String) (v : StreamSt) :
    sweepEntry now (k, v) =
      if v.active = true ∧ now - v.lastActivity > INACTIVE_TIMEOUT
      then (k, { v with active := false }) else (k, v) := rfl

/-- No entry for the name means the sweep emits no offline event for it. -/
theorem sweep_events_count_absent (tl : List (String × StreamSt)) (now : Nat) (n : String)
    (h : n ∉ tl.map Prod.fst) :
    (tl.filterMap fun e =>
      if e.2.active ∧ now - e.2.lastActivity > INACTIVE_TIMEOUT then some (Ev.offline e.1)
      else none).count (Ev.offline n) = 0 := by
  induction tl with
  | nil => rfl
  | cons hd tl ih =>
    obtain ⟨k0, v0⟩ := hd
    simp only [List.map_cons, List.mem_cons, not_or] at h
    obtain ⟨hk, htl⟩ := h
    by_cases hq : v0.active = true ∧ now - v0.lastActivity > INACTIVE_TIMEOUT
    · simp [List.filterMap_cons, hq, List.count_cons, Ne.symm hk, ih htl]
    · simp [List.filterMap_cons, hq, ih htl]

/-- With duplicate-free keys, the sweep emits exactly one offline event for
a session that qualifies and none for one that does not. -/
theorem sweep_events_count (streams : List (String × StreamSt)) (now : Nat) (n : String)
    (stream : StreamSt) (hnodup : (streams.map Prod.fst).Nodup)
    (hget : getEntry streams n = some stream) :
    (streams.filterMap fun e =>
      if e.2.active ∧ now - e.2.lastActivity > INACTIVE_TIMEOUT then some (Ev.offline e.1)
      else none).count (Ev.offline n) =
      if stream.active = true ∧ now - stream.lastActivity > INACTIVE_TIMEOUT then 1 else 0 := by
  induction streams with
  | nil => simp [getEntry] at hget
  | cons hd tl ih =>
    obtain ⟨k0, v0⟩ := hd
    simp only [List.map_cons, List.nodup_cons] at hnodup
    obtain ⟨hk0, htl⟩ := hnodup
    by_cases hk : k0 = n
    · subst hk
      rw [getEntry, if_pos rfl] at hget
      obtain rfl : v0 = stream := by injection hget
      by_cases hq : v0.active = true ∧ now - v0.lastActivity > INACTIVE_TIMEOUT
      · simp [List.filterMap_cons, hq, List.count_cons,
          sweep_events_count_absent tl now k0 hk0]
      · simp [List.filterMap_cons, hq, sweep_events_count_absent tl now k0 hk0]
    · rw [getEntry, if_neg hk] at hget
      by_cases hq : v0.active = true ∧ now - v0.lastActivity > INACTIVE_TIMEOUT
      · simp [List.filterMap_cons, hq, List.count_cons, hk, ih htl hget]
      · simp [List.filterMap_cons, hq, ih htl hget]

/-- Looking a name up after the sweep yields the swept version of its
entry. -/
theorem getEntry_sweep (streams : List (String × StreamSt)) (now : Nat) (n : String)
    (stream : StreamSt) (hget : getEntry streams n = some stream) :
    getEntry (streams.map (sweepEntry now)) n = some (sweepEntry now (n, stream)).2 := by
  induction streams with
  | nil => simp [getEntry] at hget
  | cons hd tl ih =>
    obtain ⟨k0, v0⟩ := hd
    by_cases hk : k0 = n
    · subst hk
      rw [getEntry, if_pos rfl] at hget
      obtain rfl : v0 = stream := by injection hget
      rw [List.map_cons, sweepEntry_eq]
      by_cases hq : v0.active = true ∧ now - v0.lastActivity > INACTIVE_TIMEOUT
      · rw [if_pos hq, getEntry, if_pos rfl]
      · rw [if_neg hq, getEntry, if_pos rfl]
    · rw [getEntry, if_neg hk] at hget
      rw [List.map_cons, sweepEntry_eq]
      by_cases hq : v0.active = true ∧ now - v0.lastActivity > INACTIVE_TIMEOUT
      · rw [if_pos hq, getEntry, if_neg hk]
        exact ih hget
      · rw [if_neg hq, getEntry, if_neg hk]
        exact ih hget

/-- Sweeping is idempotent on entries: a second sweep at the same instant
changes nothing. -/
theorem sweepEntry_idem (now : Nat) (e : String × StreamSt) :
    sweepEntry now (sweepEntry now e) = sweepEntry now e := by
  obtain ⟨k, v⟩ := e
  by_cases hq : v.active = true ∧ now - v.lastActivity > INACTIVE_TIMEOUT
  · rw [show sweepEntry now (k, v) = (k, { v with active := false }) from by
      rw [sweepEntry_eq, if_pos hq]]
    rw [sweepEntry_eq, if_neg (by simp)]
  · rw [show sweepEntry now (k, v) = (k, v) from by rw [sweepEntry_eq, if_neg hq]]
    rw [sweepEntry_eq, if_neg hq]

/-- Running the sweep twice at the same instant equals running it once: the
second pass changes no stream and emits no event. -/
theorem sweepOp_idem (s : SysState) (now : Nat) :
    (sweepOp (sweepOp s now).1 now).1 = (sweepOp s now).1 ∧
    (sweepOp (sweepOp s now).1 now).2 = [] := by
  obtain ⟨st, ch, ba, rl, ipc, ips, gs, rm, cn⟩ := s
  constructor
  · simp only [sweepOp]
    congr 1
    rw [List.map_map]
    apply List.map_congr_left
    intro e _
    exact sweepEntry_idem now e
  · simp only [sweepOp]
    rw [List.filterMap_map]
    rw [List.filterMap_eq_nil_iff]
    intro e _
    obtain ⟨k, v⟩ := e
    rw [Function.comp_apply, sweepEntry_eq]
    by_cases hq : v.active = true ∧ now - v.lastActivity > INACTIVE_TIMEOUT
    · rw [if_pos hq]
      simp
    · rw [if_neg hq]
      simp [hq]

/-- C6.  The inactivity sweep: an active session idle for more than five
minutes is set offline and gets exactly one `stream:offline` event; a
session that is already offline, or active but not idle long enough, is
left untouched and gets no event; and running the sweep twice at the same
instant equals running it once (the second pass changes nothing and emits
nothing). -/
theorem C6_sweep_times_out_exactly_once (s : SysState) (now : Nat) (n : String)
    (stream : StreamSt)
    (hnodup : (s.streams.map Prod.fst).Nodup)
    (hget : getEntry s.streams n = some stream) :
    (stream.active = true → now - stream.lastActivity > INACTIVE_TIMEOUT →
      getEntry (sweepOp s now).1.streams n = some { stream with active := false } ∧
      (sweepOp s now).2.count (Ev.offline n) = 1) ∧
    (stream.active = false →
      getEntry (sweepOp s now).1.streams n = some stream ∧
      (sweepOp s now).2.count (Ev.offline n) = 0) ∧
    (stream.active = true → ¬ now - stream.lastActivity > INACTIVE_TIMEOUT →
      getEntry (sweepOp s now).1.streams n = some stream ∧
      (sweepOp s now).2.count (Ev.offline n) = 0) ∧
    (sweepOp (sweepOp s now).1 now).1 = (sweepOp s now).1 ∧
    (sweepOp (sweepOp s now).1 now).2 = [] := by
  have hstr : (sweepOp s now).1.streams = s.streams.map (sweepEntry now) := rfl
  have hev : (sweepOp s now).2 = s.streams.filterMap fun e =>
      if e.2.active ∧ now - e.2.lastActivity > INACTIVE_TIMEOUT then some (Ev.offline e.1)
      else none := rfl
  refine ⟨?_, ?_, ?_, (sweepOp_idem s now).1, (sweepOp_idem s now).2⟩
  · intro hact hto
    constructor
    · rw [hstr, getEntry_sweep s.streams now n stream hget, sweepEntry_eq,
        if_pos ⟨hact, hto⟩]
    · rw [hev, sweep_events_count s.streams now n stream hnodup hget,
        if_pos ⟨hact, hto⟩]
  · intro hact
    constructor
    · rw [hstr, getEntry_sweep s.streams now n stream hget, sweepEntry_eq,
        if_neg (by simp [hact])]
    · rw [hev, sweep_events_count s.streams now n stream hnodup hget,
        if_neg (by simp [hact])]
  · intro hact hto
    constructor
    · rw [hstr, getEntry_sweep s.streams now n stream hget, sweepEntry_eq,
        if_neg (by simp [hto])]
    · rw [hev, sweep_events_count s.streams now n stream hnodup hget,
        if_neg (by simp [hto])]

/-- Witness for C6: `agent_1` is active with lastActivity 0; the sweep at
t = 400001 ms (past the 5-minute timeout) flips it offline with exactly one
offline event, and a second sweep at the same instant is a no-op. -/
theorem C6_witness :
    getEntry (sweepOp exState 400001).1.streams "agent_1" =
      some { exStream with active := false } ∧
    (sweepOp exState 400001).2.count (Ev.offline "agent_1") = 1 ∧
    (sweepOp (sweepOp exState 400001).1 400001).1 = (sweepOp exState 400001).1 ∧
    (sweepOp (sweepOp exState 400001).1 400001).2 = [] := by
  have h := C6_sweep_times_out_exactly_once exState 400001 "agent_1" exStream
    (by decide) rfl
  exact ⟨(h.1 rfl (by decide)).1, (h.1 rfl (by decide)).2, h.2.2.2.1, h.2.2.2.2⟩

/-- Each escaped character expands to at most 6 characters. -/
theorem escapeChar_length (c : Char) : (escapeChar c).length ≤ 6 := by
  unfold escapeChar
  split_ifs <;> simp

/-- Character-list bound for the HTML escaper. -/
theorem flatMap_escapeChar_length (l : List Char) :
    (l.flatMap escapeChar).length ≤ 6 * l.length := by
  induction l with
  | nil => simp
  | cons c cs ih =>
    rw [List.flatMap_cons, List.length_append]
    have := escapeChar_length c
    simp only [List.length_cons]
    omega

/-- `escapeHtml` expands its input by a factor of at most 6. -/
theorem escapeHtml_length (t : String) : (escapeHtml t).length ≤ 6 * t.length := by
  unfold escapeHtml
  split
  · simp
  · exact flatMap_escapeChar_length t.data

/-- Counterexample to C7 as stated: the input `c7text` has 84 characters, so
the send is accepted (here: creates the session), yet the stored line's text
— the HTML-escaped form — has 504 characters, exceeding the claimed
500-character bound on stored Line text. -/
theorem C7_counterexample :
    c7text.length ≤ 500 ∧
    (sendOp initState "agent_1" none c7text "log" "203.0.113.5" 21 0).result =
      SendResult.created 21 ∧
    ((getEntry (sendOp initState "agent_1" none c7text "log" "203.0.113.5" 21 0).state.streams
        "agent_1").map fun st => st.lines.map fun l => l.text.length) = some [504] ∧
    ¬ 504 ≤ 500 := by
  refine ⟨by decide, ?_, ?_, by decide⟩ <;> decide

/-- C7 as amended.  The line stored by an accepted send is
`{time, escapeHtml(text), type}` where the raw input passed the
500-character validation; the stored (escaped) text is therefore bounded by
6 × 500 = 3000 characters — not by 500, since escaping expands
`& < > " '` — it is sanitized by construction, and the type is one of
log/tool/thought.  Both the existing-session path and the creation path
store exactly this line. -/
theorem C7_amended_stored_line_escaped (s : SysState) (agentName : String)
    (token : Option Nat) (text ty ip : String) (fresh now : Nat) (stream : StreamSt)
    (s0 : SysState)
    (hname : isValidAgentName agentName = true)
    (hban : agentName ∉ s.bannedAgents)
    (htext : text ≠ "")
    (hlen : ¬ text.length > 500)
    (hty : ty = "log" ∨ ty = "tool" ∨ ty = "thought")
    (hs : getEntry s.streams agentName = some stream)
    (htok : token = some stream.token)
    (hrl : (checkStreamRateLimit s.rateLimits agentName now).1 = true)
    (hban0 : agentName ∉ s0.bannedAgents)
    (hs0 : getEntry s0.streams agentName = none)
    (hip : (checkIPStreamCreationLimit s0.ipStreamCreation ip now).1 = true) :
    (getEntry (sendOp s agentName token text ty ip fresh now).state.streams agentName =
      some (appendLine stream now text ty) ∧
     (appendLine stream now text ty).lines.getLast? =
      some (⟨now, escapeHtml text, ty⟩ : Line)) ∧
    getEntry (sendOp s0 agentName token text ty ip fresh now).state.streams agentName =
      some (⟨fresh, true, [⟨now, escapeHtml text, ty⟩], ∅, now, now, ⟨0, 1⟩⟩ : StreamSt) ∧
    text.length ≤ 500 ∧
    (escapeHtml text).length ≤ 6 * text.length ∧
    (escapeHtml text).length ≤ 3000 ∧
    (ty = "log" ∨ ty = "tool" ∨ ty = "thought") := by
  have h6 := escapeHtml_length text
  have h500 : text.length ≤ 500 := by omega
  refine ⟨⟨?_, ?_⟩, ?_, h500, h6, by omega, hty⟩
  · rw [sendOp_accepted s agentName token text ty ip fresh now stream
      hname hban htext hlen hty hs htok hrl]
    exact getEntry_setEntry_same _ _ _
  · rw [appendLine_lines]
    split
    · next hgt =>
      have hne : stream.lines ≠ [] := by
        intro hnil
        rw [hnil] at hgt
        simp at hgt
      rw [tail_append_singleton _ _ hne, List.getLast?_concat]
    · exact List.getLast?_concat _
  · rw [sendOp_creates s0 agentName token text ty ip fresh now
      hname hban0 htext hlen hty hs0 hip]
    exact getEntry_setEntry_same _ _ _

/-- Witness for the amended C7: a send of `hi&` (3 raw chars) to the
existing session appends the escaped line, a creating send stores it as the
only line, and the escaped text is within the 3000-character bound. -/
theorem C7_witness :
    getEntry (sendOp exState "agent_1" (some 42) "hi&" "tool" "203.0.113.5" 7 9).state.streams
        "agent_1" = some (appendLine exStream 9 "hi&" "tool") ∧
    (appendLine exStream 9 "hi&" "tool").lines.getLast? =
      some (⟨9, escapeHtml "hi&", "tool"⟩ : Line) ∧
    getEntry (sendOp initState "agent_1" (some 42) "hi&" "tool" "203.0.113.5" 7 9).state.streams
        "agent_1" =
      some (⟨7, true, [⟨9, escapeHtml "hi&", "tool"⟩], ∅, 9, 9, ⟨0, 1⟩⟩ : StreamSt) ∧
    (escapeHtml "hi&").length ≤ 3000 := by
  have h := C7_amended_stored_line_escaped exState "agent_1" (some 42) "hi&" "tool"
    "203.0.113.5" 7 9 exStream initState
    (by decide) (by decide) (by decide) (by decide) (Or.inr (Or.inl rfl))
    rfl rfl rfl (by decide) rfl rfl
  exact ⟨h.1.1, h.1.2, h.2.1, h.2.2.2.2.1⟩

/-- Counterexample to C8 as stated: two consecutive reset ticks 61 s apart
(a legal schedule for a 60 s `setInterval` under 1 s of delay) straddle a
calendar-day boundary, yet neither tick's clock reads 00:00, so neither
fires — the boundary is skipped and the day-scoped counters stay nonzero,
refuting "fires exactly once per calendar-day boundary — neither skipping a
boundary...". -/
theorem C8_counterexample :
    dayOf 86399500 ≠ dayOf 86460500 ∧
    86460500 - 86399500 ≥ 60000 ∧
    dailyResetTick exStats 86399500 = exStats ∧
    dailyResetTick exStats 86460500 = exStats ∧
    exStats.totalStreamsToday ≠ 0 := by
  refine ⟨by decide, by decide, ?_, ?_, by decide⟩ <;>
    rw [dailyResetTick, if_neg (by decide)]

/-- A tick that fires has its timestamp within the first minute of its
calendar day. -/
theorem fires_within_first_minute (t : Nat)
    (h1 : hoursOf t = 0) (h2 : minutesOf t = 0) : t % 86400000 < 60000 := by
  rw [hoursOf] at h1
  rw [minutesOf] at h2
  omega

/-- C8 as amended.  A tick whose clock reads 00:00 zeroes the day-scoped
counters (streams today, messages today, today's peak concurrent viewers),
stamps `lastReset`, and leaves the all-time peak viewer counter unchanged;
any other tick changes nothing.  Two firing ticks inside the same calendar
day are less than 60 s apart, so ticks spaced at least the 60 s interval
apart fire at most once per day — but a boundary can be skipped when no
tick lands inside the 00:00 minute (see the counterexample), so
"exactly once per boundary" does not hold. -/
theorem C8_amended_daily_reset (g : GlobalStats) (t t1 t2 : Nat) :
    (hoursOf t = 0 ∧ minutesOf t = 0 →
      dailyResetTick g t = ⟨0, 0, g.allTimePeakViewers, 0, t⟩) ∧
    (¬ (hoursOf t = 0 ∧ minutesOf t = 0) → dailyResetTick g t = g) ∧
    (dayOf t1 = dayOf t2 → hoursOf t1 = 0 → minutesOf t1 = 0 →
      hoursOf t2 = 0 → minutesOf t2 = 0 → t1 ≤ t2 → t2 - t1 < 60000) := by
  refine ⟨?_, ?_, ?_⟩
  · intro hf
    rw [dailyResetTick, if_pos hf]
  · intro hf
    rw [dailyResetTick, if_neg hf]
  · intro hday h1 h2 h3 h4 hle
    have m1 := fires_within_first_minute t1 h1 h2
    have m2 := fires_within_first_minute t2 h3 h4
    rw [dayOf, dayOf, MS_PER_DAY] at hday
    omega

/-- Witness for the amended C8: the tick at exactly midnight of day 1 zeroes
the day counters and keeps the all-time peak (9); the tick at 00:01:00.5
does nothing; and two firing ticks of one day are less than a minute
apart. -/
theorem C8_witness :
    dailyResetTick exStats 86400000 = ⟨0, 0, 9, 0, 86400000⟩ ∧
    dailyResetTick exStats 86460500 = exStats ∧
    86400000 - 86400000 < 60000 := by
  have ha := (C8_amended_daily_reset exStats 86400000 0 0).1 (by decide)
  have hc := (C8_amended_daily_reset exStats 86460500 0 0).2.1 (by decide)
  have hb := (C8_amended_daily_reset exStats 0 86400000 86400000).2.2 rfl
    (by decide) (by decide) (by decide) (by decide) (by decide)
  exact ⟨ha, hc, hb⟩

theorem viewerInv_init : ViewerInv initState := by
  intro c n st hget _
  simp [initState, getEntry] at hget

/-- `appendLine` never touches the viewer set. -/
theorem appendLine_viewers (stream : StreamSt) (now : Nat) (text ty : String) :
    (appendLine stream now text ty).viewers = stream.viewers := by
  by_cases h : stream.active <;> simp [appendLine, h] <;> split <;> rfl

/-- `sweepEntry` never touches the viewer set. -/
theorem sweepEntry_viewers (now : Nat) (k : String) (v : StreamSt) :
    (sweepEntry now (k, v)).2.viewers = v.viewers := by
  rw [sweepEntry_eq]
  split <;> rfl

/-- A name absent before the sweep is absent after it. -/
theorem getEntry_map_sweep_none (streams : List (String × StreamSt)) (now : Nat)
    (m : String) (h : getEntry streams m = none) :
    getEntry (streams.map (sweepEntry now)) m = none := by
  induction streams with
  | nil => rfl
  | cons hd tl ih =>
    obtain ⟨k, v⟩ := hd
    by_cases hk : k = m
    · rw [getEntry, if_pos hk] at h
      exact Option.noConfusion h
    · rw [getEntry, if_neg hk] at h
      rw [List.map_cons, sweepEntry_eq]
      split <;> rw [getEntry, if_neg hk] <;> exact ih h

/-- `leavePrevious` when the socket watches nothing: no change. -/
theorem leavePrevious_none (s : SysState) (conn : Nat)
    (h : (s.conns conn).currentStream = none) :
    (leavePrevious s conn).1 = s := by
  unfold leavePrevious
  rw [h]

/-- `leavePrevious` never changes the per-socket state. -/
theorem leavePrevious_conns (s : SysState) (conn : Nat) :
    (leavePrevious s conn).1.conns = s.conns := by
  unfold leavePrevious
  rcases (s.conns conn).currentStream with _ | prev
  · rfl
  · dsimp only
    rcases getEntry s.streams prev with _ | pst <;> rfl

/-- Streams after `leavePrevious` when the previous stream is gone: no
change. -/
theorem leavePrevious_streams_noprev (s : SysState) (conn : Nat) (prev : String)
    (h : (s.conns conn).currentStream = some prev)
    (hp : getEntry s.streams prev = none) :
    (leavePrevious s conn).1.streams = s.streams := by
  unfold leavePrevious
  rw [h]
  dsimp only
  rw [hp]

/-- Streams after `leavePrevious` when the previous stream exists: the
socket is erased from its viewer set. -/
theorem leavePrevious_streams_prev (s : SysState) (conn : Nat) (prev : String)
    (pst : StreamSt)
    (h : (s.conns conn).currentStream = some prev)
    (hp : getEntry s.streams prev = some pst) :
    (leavePrevious s conn).1.streams =
      setEntry s.streams prev { pst with viewers := pst.viewers.erase conn } := by
  unfold leavePrevious
  rw [h]
  dsimp only
  rw [hp]

/-- After `leavePrevious`, the departing socket is in no viewer set. -/
theorem leavePrevious_conn_not_viewer (s : SysState) (conn : Nat) (h : ViewerInv s)
    (n : String) (st : StreamSt)
    (hget : getEntry (leavePrevious s conn).1.streams n = some st) :
    conn ∉ st.viewers := by
  rcases hcur : (s.conns conn).currentStream with _ | prev
  · rw [leavePrevious_none s conn hcur] at hget
    intro hmem
    have hp := h conn n st hget hmem
    rw [hcur] at hp
    exact Option.noConfusion hp
  · rcases hprev : getEntry s.streams prev with _ | pst
    · rw [leavePrevious_streams_noprev s conn prev hcur hprev] at hget
      intro hmem
      have hp := h conn n st hget hmem
      rw [hcur] at hp
      injection hp with hh
      subst hh
      rw [hprev] at hget
      exact Option.noConfusion hget
    · rw [leavePrevious_streams_prev s conn prev pst hcur hprev] at hget
      by_cases hn : n = prev
      · subst hn
        rw [getEntry_setEntry_same] at hget
        injection hget with hh
        subst hh
        exact Finset.not_mem_erase conn pst.viewers
      · rw [getEntry_setEntry_other _ _ _ _ hn] at hget
        intro hmem
        have hp := h conn n st hget hmem
        rw [hcur] at hp
        injection hp with hh
        exact hn hh.symm

/-- After `leavePrevious`, any other socket's memberships come from the
original state. -/
theorem leavePrevious_mem_other (s : SysState) (conn c : Nat) (n : String)
    (st : StreamSt) (_hc : c ≠ conn)
    (hget : getEntry (leavePrevious s conn).1.streams n = some st)
    (hmem : c ∈ st.viewers) :
    ∃ st0, getEntry s.streams n = some st0 ∧ c ∈ st0.viewers := by
  rcases hcur : (s.conns conn).currentStream with _ | prev
  · rw [leavePrevious_none s conn hcur] at hget
    exact ⟨st, hget, hmem⟩
  · rcases hprev : getEntry s.streams prev with _ | pst
    · rw [leavePrevious_streams_noprev s conn prev hcur hprev] at hget
      exact ⟨st, hget, hmem⟩
    · rw [leavePrevious_streams_prev s conn prev pst hcur hprev] at hget
      by_cases hn : n = prev
      · subst hn
        rw [getEntry_setEntry_same] at hget
        injection hget with hh
        subst hh
        exact ⟨pst, hprev, Finset.mem_of_mem_erase hmem⟩
      · rw [getEntry_setEntry_other _ _ _ _ hn] at hget
        exact ⟨st, hget, hmem⟩

/-- The pointer of the joining socket after `pointAt`. -/
theorem pointAt_conns_self (s : SysState) (conn : Nat) (agentName : String) :
    ((pointAt s conn agentName).conns conn).currentStream = some agentName := by
  simp [pointAt]

/-- Other sockets' state is unchanged by `pointAt`. -/
theorem pointAt_conns_other (s : SysState) (conn : Nat) (agentName : String)
    (c : Nat) (hc : c ≠ conn) :
    (pointAt s conn agentName).conns c = s.conns c := by
  simp [pointAt, hc]

/-- The invariant holds after leave-then-point (the state the `join`
handler is in when it reaches the capacity check). -/
theorem viewerInv_pointAt_leave (s : SysState) (conn : Nat) (agentName : String)
    (h : ViewerInv s) :
    ViewerInv (pointAt (leavePrevious s conn).1 conn agentName) := by
  intro c n st hget hmem
  have hget' : getEntry (leavePrevious s conn).1.streams n = some st := hget
  by_cases hc : c = conn
  · subst hc
    exact absurd hmem (leavePrevious_conn_not_viewer s c h n st hget')
  · obtain ⟨st0, hget0, hmem0⟩ := leavePrevious_mem_other s conn c n st hc hget' hmem
    have hp := h c n st0 hget0 hmem0
    rw [pointAt_conns_other _ _ _ _ hc, congrFun (leavePrevious_conns s conn) c]
    exact hp

/-- Rewriting one entry without changing its viewer set preserves the
presence invariant, provided pointers are untouched. -/
theorem viewerInv_setEntry_same_viewers (s s' : SysState) (agentName : String)
    (stream v : StreamSt)
    (hcase : getEntry s.streams agentName = some stream)
    (hstr : s'.streams = setEntry s.streams agentName v)
    (hv : v.viewers = stream.viewers)
    (hconns : ∀ c, (s'.conns c).currentStream = (s.conns c).currentStream)
    (h : ViewerInv s) : ViewerInv s' := by
  intro c n st hget hmem
  rw [hconns c]
  rw [hstr] at hget
  by_cases hn : n = agentName
  · subst hn
    rw [getEntry_setEntry_same] at hget
    injection hget with hh
    subst hh
    rw [hv] at hmem
    exact h c n stream hcase hmem
  · rw [getEntry_setEntry_other _ _ _ _ hn] at hget
    exact h c n st hget hmem

/-- Installing an entry with an empty viewer set preserves the presence
invariant, provided pointers are untouched. -/
theorem viewerInv_setEntry_empty_viewers (s s' : SysState) (agentName : String)
    (v : StreamSt)
    (hstr : s'.streams = setEntry s.streams agentName v)
    (hv : v.viewers = ∅)
    (hconns : ∀ c, (s'.conns c).currentStream = (s.conns c).currentStream)
    (h : ViewerInv s) : ViewerInv s' := by
  intro c n st hget hmem
  rw [hconns c]
  rw [hstr] at hget
  by_cases hn : n = agentName
  · subst hn
    rw [getEntry_setEntry_same] at hget
    injection hget with hh
    subst hh
    rw [hv] at hmem
    simp at hmem
  · rw [getEntry_setEntry_other _ _ _ _ hn] at hget
    exact h c n st hget hmem

/-- `sendOp` preserves the presence invariant: it creates sessions only with
empty viewer sets and rewrites entries without touching their viewers. -/
theorem viewerInv_sendOp (s : SysState) (agentName : String) (token : Option Nat)
    (text ty ip : String) (fresh now : Nat) (h : ViewerInv s) :
    ViewerInv (sendOp s agentName token text ty ip fresh now).state := by
  rcases hcase : getEntry s.streams agentName with _ | stream
  · simp only [sendOp, hcase]
    split_ifs <;>
      first
        | exact h
        | exact viewerInv_setEntry_empty_viewers s _ agentName _ rfl rfl (fun c => rfl) h
  · simp only [sendOp, hcase]
    split_ifs <;>
      first
        | exact h
        | exact viewerInv_setEntry_same_viewers s _ agentName stream
            (appendLine stream now text ty) hcase rfl
            (appendLine_viewers stream now text ty) (fun c => rfl) h

/-- `rotateOp` preserves the presence invariant (token-only rewrite). -/
theorem viewerInv_rotateOp (s : SysState) (agentName : String) (oldToken : Option Nat)
    (fresh : Nat) (h : ViewerInv s) :
    ViewerInv (rotateOp s agentName oldToken fresh).1 := by
  rcases hcase : getEntry s.streams agentName with _ | stream
  · simp only [rotateOp, hcase]
    exact h
  · simp only [rotateOp, hcase]
    split_ifs
    · exact h
    · exact viewerInv_setEntry_same_viewers s _ agentName stream
        { stream with token := fresh } hcase rfl rfl (fun c => rfl) h

/-- `banOp` preserves the presence invariant (active-flag rewrite). -/
theorem viewerInv_banOp (s : SysState) (agentName : String) (h : ViewerInv s) :
    ViewerInv (banOp s agentName).1 := by
  rcases hcase : getEntry s.streams agentName with _ | stream <;>
    simp only [banOp, hcase]
  · exact h
  · split_ifs
    · exact viewerInv_setEntry_same_viewers s _ agentName stream
        { stream with active := false } hcase rfl rfl (fun c => rfl) h
    · exact h

/-- `endOp` preserves the presence invariant (active-flag rewrite). -/
theorem viewerInv_endOp (s : SysState) (agentName : String) (h : ViewerInv s) :
    ViewerInv (endOp s agentName).1 := by
  rcases hcase : getEntry s.streams agentName with _ | stream <;>
    simp only [endOp, hcase]
  · exact h
  · exact viewerInv_setEntry_same_viewers s _ agentName stream
      { stream with active := false } hcase rfl rfl (fun c => rfl) h

/-- `unbanOp` preserves the presence invariant (ban set only). -/
theorem viewerInv_unbanOp (s : SysState) (agentName : String) (h : ViewerInv s) :
    ViewerInv (unbanOp s agentName).1 := h

/-- `tickOp` preserves the presence invariant (global stats only). -/
theorem viewerInv_tickOp (s : SysState) (now : Nat) (h : ViewerInv s) :
    ViewerInv (tickOp s now) := h

/-- `sweepOp` preserves the presence invariant (active-flag rewrites). -/
theorem viewerInv_sweepOp (s : SysState) (now : Nat) (h : ViewerInv s) :
    ViewerInv (sweepOp s now).1 := by
  intro c n st hget hmem
  have hget' : getEntry (s.streams.map (sweepEntry now)) n = some st := hget
  rcases hcase : getEntry s.streams n with _ | old
  · rw [getEntry_map_sweep_none s.streams now n hcase] at hget'
    exact Option.noConfusion hget'
  · rw [getEntry_sweep s.streams now n old hcase] at hget'
    injection hget' with hh
    subst hh
    rw [sweepEntry_viewers] at hmem
    exact h c n old hcase hmem

/-- `chatOp` preserves the presence invariant: it never touches viewer sets
or `currentStream` pointers. -/
theorem viewerInv_chatOp (s : SysState) (conn : Nat) (text : String) (now : Nat)
    (h : ViewerInv s) : ViewerInv (chatOp s conn text now).1 := by
  rcases hcur : (s.conns conn).currentStream with _ | name <;>
    simp only [chatOp, hcur]
  · exact h
  · rcases hst : getEntry s.streams name with _ | stream <;> simp only [hst] <;>
      split_ifs <;>
      first
        | exact h
        | (intro c n st hget hmem
           have hp := h c n st hget hmem
           by_cases hc : c = conn
           · subst hc
             simpa using hp
           · simpa [hc] using hp)

/-- `disconnectOp` preserves the presence invariant: the socket is erased
from its stream's viewer set and its pointer dies with it. -/
theorem viewerInv_disconnectOp (s : SysState) (conn : Nat) (h : ViewerInv s) :
    ViewerInv (disconnectOp s conn).1 := by
  rcases hcur : (s.conns conn).currentStream with _ | name <;>
    simp only [disconnectOp, hcur]
  · intro c n st hget hmem
    have hp := h c n st hget hmem
    by_cases hc : c = conn
    · subst hc
      rw [hcur] at hp
      exact Option.noConfusion hp
    · simpa [hc] using hp
  · rcases hprev : getEntry s.streams name with _ | stream <;> simp only [hprev]
    · intro c n st hget hmem
      have hp := h c n st hget hmem
      by_cases hc : c = conn
      · subst hc
        rw [hcur] at hp
        injection hp with hh
        subst hh
        rw [hprev] at hget
        exact Option.noConfusion hget
      · simpa [hc] using hp
    · intro c n st hget hmem
      have hget' : getEntry (setEntry s.streams name
          { stream with viewers := stream.viewers.erase conn }) n = some st := hget
      by_cases hn : n = name
      · subst hn
        rw [getEntry_setEntry_same] at hget'
        injection hget' with hh
        subst hh
        have hc : c ≠ conn := Finset.ne_of_mem_erase hmem
        have hmem' : c ∈ stream.viewers := Finset.mem_of_mem_erase hmem
        have hp := h c n stream hprev hmem'
        simpa [hc] using hp
      · rw [getEntry_setEntry_other _ _ _ _ hn] at hget'
        have hp := h c n st hget' hmem
        by_cases hc : c = conn
        · subst hc
          rw [hcur] at hp
          injection hp with hh
          exact absurd hh.symm hn
        · simpa [hc] using hp

/-- `pointAt` leaves the stream map untouched. -/
theorem pointAt_streams (s : SysState) (conn : Nat) (agentName : String) :
    (pointAt s conn agentName).streams = s.streams := rfl

/-- `joinOp` preserves the presence invariant: it removes the socket from
its previous viewer set before (possibly) adding it to the new one, and the
pointer always follows. -/
theorem viewerInv_joinOp (s : SysState) (conn : Nat) (agentName : String)
    (h : ViewerInv s) : ViewerInv (joinOp s conn agentName).1 := by
  by_cases hname : isValidAgentName agentName = true
  · rw [joinOp, if_neg (by simp [hname])]
    have hinv2 := viewerInv_pointAt_leave s conn agentName h
    dsimp only
    rw [pointAt_streams]
    rcases hget : getEntry (leavePrevious s conn).1.streams agentName with _ | stream
    · exact hinv2
    · dsimp only
      by_cases hfull : stream.viewers.card ≥ MAX_VIEWERS_PER_STREAM
      · rw [if_pos hfull]
        exact hinv2
      · rw [if_neg hfull]
        intro c n st hget' hmem
        have hget'' : getEntry (setEntry
            (pointAt (leavePrevious s conn).1 conn agentName).streams agentName
            (if (insert conn stream.viewers).card > stream.stats.peakViewers then
                StreamSt.mk stream.token stream.active stream.lines
                  (insert conn stream.viewers) stream.startedAt stream.lastActivity
                  (StreamStats.mk (insert conn stream.viewers).card
                    stream.stats.totalMessages)
              else
                StreamSt.mk stream.token stream.active stream.lines
                  (insert conn stream.viewers) stream.startedAt stream.lastActivity
                  stream.stats)) n =
            some st := hget'
        by_cases hn : n = agentName
        · subst hn
          rw [getEntry_setEntry_same] at hget''
          injection hget'' with hh
          subst hh
          have hmem' : c ∈ insert conn stream.viewers := by
            rcases (em ((insert conn stream.viewers).card >
                stream.stats.peakViewers)) with hp | hp
            · rw [if_pos hp] at hmem
              exact hmem
            · rw [if_neg hp] at hmem
              exact hmem
          rcases Finset.mem_insert.mp hmem' with rfl | hmem2
          · exact pointAt_conns_self (leavePrevious s c).1 c n
          · exact hinv2 c n stream hget hmem2
        · rw [getEntry_setEntry_other _ _ _ _ hn] at hget''
          exact hinv2 c n st hget'' hmem
  · rw [joinOp, if_pos (by simp [hname])]
    exact h

/-- Every handler preserves the presence invariant. -/
theorem viewerInv_applyOp (s : SysState) (o : Op) (h : ViewerInv s) :
    ViewerInv (applyOp s o) := by
  cases o with
  | opSend name tok text ty ip fresh now => exact viewerInv_sendOp s name tok text ty ip fresh now h
  | opRotate name old fresh => exact viewerInv_rotateOp s name old fresh h
  | opJoin conn name => exact viewerInv_joinOp s conn name h
  | opChat conn text now => exact viewerInv_chatOp s conn text now h
  | opDisconnect conn => exact viewerInv_disconnectOp s conn h
  | opBan name => exact viewerInv_banOp s name h
  | opUnban name => exact viewerInv_unbanOp s name h
  | opEnd name => exact viewerInv_endOp s name h
  | opSweep now => exact viewerInv_sweepOp s now h
  | opTick now => exact viewerInv_tickOp s now h

/-- The presence invariant holds in every reachable state. -/
theorem viewerInv_run (ops : List Op) : ViewerInv (run ops) := by
  have hfold : ∀ (l : List Op) (s : SysState), ViewerInv s → ViewerInv (l.foldl applyOp s) := by
    intro l
    induction l with
    | nil => intro s hs; exact hs
    | cons o rest ih => intro s hs; exact ih (applyOp s o) (viewerInv_applyOp s o hs)
  exact hfold ops initState viewerInv_init

/-- C9.  In every reachable state, a connection identifier belongs to at
most one stream's viewer set: membership in two streams' viewer sets forces
the two names to coincide.  The proof goes through the inductive invariant
`ViewerInv` (membership implies the connection's `currentStream` pointer
names that stream), preserved by every handler: `join` removes the socket
from its previous stream's viewers before pointing at and possibly joining
the new one, and `disconnect` removes it from its current stream's
viewers. -/
theorem C9_viewer_in_at_most_one_stream (ops : List Op) (c : Nat)
    (n1 n2 : String) (st1 st2 : StreamSt)
    (h1 : getEntry (run ops).streams n1 = some st1)
    (h2 : getEntry (run ops).streams n2 = some st2)
    (hm1 : c ∈ st1.viewers) (hm2 : c ∈ st2.viewers) : n1 = n2 := by
  have hinv := viewerInv_run ops
  have e1 := hinv c n1 st1 h1 hm1
  have e2 := hinv c n2 st2 h2 hm2
  injection e1.symm.trans e2

/-- Witness for C9 at a concrete run: after a create and a join, socket 5
is a viewer of `agent_1`, and the theorem applies to that membership. -/
theorem C9_witness :
    getEntry (run c9ops).streams "agent_1" = some c9stream ∧
    5 ∈ c9stream.viewers ∧
    "agent_1" = "agent_1" := by
  have hget : getEntry (run c9ops).streams "agent_1" = some c9stream := by decide
  have hmem : 5 ∈ c9stream.viewers := by decide
  exact ⟨hget, hmem,
    C9_viewer_in_at_most_one_stream c9ops 5 "agent_1" "agent_1" c9stream c9stream
      hget hget hmem hmem⟩

/-- Events of `leavePrevious` when the previous stream exists: one
`viewer:count` broadcast with the post-erase size. -/
theorem leavePrevious_events_prev (s : SysState) (conn : Nat) (prev : String)
    (pst : StreamSt)
    (h : (s.conns conn).currentStream = some prev)
    (hp : getEntry s.streams prev = some pst) :
    (leavePrevious s conn).2 = [Ev.viewerCount prev (pst.viewers.erase conn).card] := by
  unfold leavePrevious
  rw [h]
  dsimp only
  rw [hp]

/-- C10.  A join against a stream whose viewer set is already at
`MAX_VIEWERS_PER_STREAM` is rejected with the capacity error and the
connection is not added to that viewer set — but by then the handler has
already removed the connection from its previous stream's viewer set
(broadcasting the shrunken count), pointed its `currentStream` at the full
stream, and entered it into the full stream's broadcast room, so the
connection will receive the room's subsequent events; and the rejected join
sends no snapshot (`stream:init`/`chat:init`). -/
theorem C10_capacity_reject_after_side_effects (s : SysState) (conn : Nat)
    (agentName prev : String) (stream pst : StreamSt)
    (hname : isValidAgentName agentName = true)
    (hcur : (s.conns conn).currentStream = some prev)
    (hne : prev ≠ agentName)
    (hprev : getEntry s.streams prev = some pst)
    (hstream : getEntry s.streams agentName = some stream)
    (hfull : stream.viewers.card ≥ MAX_VIEWERS_PER_STREAM) :
    (joinOp s conn agentName).2 =
      [Ev.viewerCount prev (pst.viewers.erase conn).card,
       Ev.errMsg conn "Stream at capacity, try again later"] ∧
    getEntry (joinOp s conn agentName).1.streams agentName = some stream ∧
    getEntry (joinOp s conn agentName).1.streams prev =
      some { pst with viewers := pst.viewers.erase conn } ∧
    ((joinOp s conn agentName).1.conns conn).currentStream = some agentName ∧
    conn ∈ (joinOp s conn agentName).1.rooms agentName ∧
    (∀ lines msgs, Ev.snapshot conn lines msgs ∉ (joinOp s conn agentName).2) := by
  have hgets : getEntry (leavePrevious s conn).1.streams agentName = some stream := by
    rw [leavePrevious_streams_prev s conn prev pst hcur hprev,
      getEntry_setEntry_other _ _ _ _ (Ne.symm hne)]
    exact hstream
  rw [joinOp, if_neg (by simp [hname])]
  dsimp only
  rw [pointAt_streams, hgets]
  dsimp only
  rw [if_pos hfull]
  refine ⟨?_, ?_, ?_, ?_, ?_, ?_⟩
  · show (leavePrevious s conn).2 ++ [Ev.errMsg conn "Stream at capacity, try again later"] = _
    rw [leavePrevious_events_prev s conn prev pst hcur hprev]
    rfl
  · show getEntry (pointAt (leavePrevious s conn).1 conn agentName).streams agentName =
      some stream
    rw [pointAt_streams]
    exact hgets
  · show getEntry (pointAt (leavePrevious s conn).1 conn agentName).streams prev =
      some { pst with viewers := pst.viewers.erase conn }
    rw [pointAt_streams, leavePrevious_streams_prev s conn prev pst hcur hprev]
    exact getEntry_setEntry_same _ _ _
  · exact pointAt_conns_self _ conn agentName
  · show conn ∈ (pointAt (leavePrevious s conn).1 conn agentName).rooms agentName
    simp [pointAt]
  · intro lines msgs
    show Ev.snapshot conn lines msgs ∉
      (leavePrevious s conn).2 ++ [Ev.errMsg conn "Stream at capacity, try again later"]
    rw [leavePrevious_events_prev s conn prev pst hcur hprev]
    simp

set_option maxRecDepth 40000 in
/-- Witness for C10: socket 5's join of the full `agent_1` is rejected with
the capacity error, after it has left `agent_2`'s viewers, repointed at
`agent_1` and entered its room. -/
theorem C10_witness :
    (joinOp c10state 5 "agent_1").2 =
      [Ev.viewerCount "agent_2" ((c10prev.viewers.erase 5).card),
       Ev.errMsg 5 "Stream at capacity, try again later"] ∧
    getEntry (joinOp c10state 5 "agent_1").1.streams "agent_1" = some c10full ∧
    getEntry (joinOp c10state 5 "agent_1").1.streams "agent_2" =
      some { c10prev with viewers := c10prev.viewers.erase 5 } ∧
    ((joinOp c10state 5 "agent_1").1.conns 5).currentStream = some "agent_1" ∧
    5 ∈ (joinOp c10state 5 "agent_1").1.rooms "agent_1" := by
  have a1 : isValidAgentName "agent_1" = true := by decide
  have a2 : (c10state.conns 5).currentStream = some "agent_2" := rfl
  have a3 : ("agent_2" : String) ≠ "agent_1" := by decide
  have a4 : getEntry c10state.streams "agent_2" = some c10prev := rfl
  have a5 : getEntry c10state.streams "agent_1" = some c10full := rfl
  have a6 : c10full.viewers.card ≥ MAX_VIEWERS_PER_STREAM := by
    simp [c10full, MAX_VIEWERS_PER_STREAM]
  have h := C10_capacity_reject_after_side_effects c10state 5 "agent_1" "agent_2"
    c10full c10prev a1 a2 a3 a4 a5 a6
  exact ⟨h.1, h.2.1, h.2.2.1, h.2.2.2.1, h.2.2.2.2.1⟩

